import Mathlib

/-! The file system calls of kern/syscall/file_syscalls.c

A shallow embedding of `sys_open`, `sys_read`, `sys_write`, `sys_close` and
`sys_meld`, and theorems about them.

Conventions of the embedding.

* A C result code (`int result`, the value a system call returns) is an
  `Option Errno`: `none` is 0, `some e` is the non-zero error number `e`.
  `if(result)` is therefore `result.isSome`.
* `struct openfile *` is an index into the list of open-file objects of the
  kernel state; `NULL` in a descriptor slot is `none`.
* The state is passed explicitly: every call takes the kernel state and gives
  back the state it leaves behind.  `curproc->p_filetable` is the one table of
  the state.
* The virtual file system (vfs_open, VOP_READ, VOP_WRITE, VOP_STAT) is an
  external collaborator.  The calls are written over an arbitrary `Vfs`, a
  record of these operations; `memfs` is one instance, a store of named byte
  sequences.
* An `int` has 32 bits: a value stored in an `int` (`size` and `counter` of
  `sys_meld`, every value stored through `int *retval`) goes through `to_int`.
  A `size_t` has 32 bits without sign; the requested length of a transfer is a
  natural number.  File offsets and file sizes (`off_t`, 64 bits) are natural
  numbers.
* The kernel has one thread in the model.  A lock is the flag "held", and
  `lock_acquire` on a lock that is held does not return (`blocks`): no other
  thread is there to release it.
-/

namespace OS161

/-- One byte of a file or of an I/O buffer. -/
abbrev Byte := Nat

/-- The error numbers of kern/errno.h that the file system calls and their
collaborators use. -/
inductive Errno where
  | EINVAL
  | EFAULT
  | ENAMETOOLONG
  | ENOENT
  | EEXIST
  | EMFILE
  | EBADF
  | EACCES
  | ENOMEM
  | ENOSPC
  | ENODEV
  deriving DecidableEq, Repr

open Errno

/-! ## Flags of kern/fcntl.h -/

/-- Modelled from the spec: the access mode "read-only" of kern/fcntl.h (the
header is not in the source); the value is that of the OS/161 header. -/
def O_RDONLY : Nat := 0
/-- Modelled from the spec: the access mode "write-only" of kern/fcntl.h. -/
def O_WRONLY : Nat := 1
/-- Modelled from the spec: the access mode "read-write" of kern/fcntl.h. -/
def O_RDWR : Nat := 2
/-- Modelled from the spec: the mask of the access-mode bits of kern/fcntl.h. -/
def O_ACCMODE : Nat := 3
/-- Modelled from the spec: the flag "create-if-missing" of kern/fcntl.h. -/
def O_CREAT : Nat := 4
/-- Modelled from the spec: the flag "fail-if-exists" of kern/fcntl.h. -/
def O_EXCL : Nat := 8
/-- Modelled from the spec: the flag "truncate-on-open" of kern/fcntl.h. -/
def O_TRUNC : Nat := 16
/-- Modelled from the spec: the flag "append-only" of kern/fcntl.h. -/
def O_APPEND : Nat := 32
/-- Modelled from the spec: the flag "no-controlling-terminal" of kern/fcntl.h. -/
def O_NOCTTY : Nat := 64

/-! ## Machine integers -/

/-- The conversion of a value to `int`: 32 bits, two's complement. -/
def to_int (x : Int) : Int := (x + 2147483648) % 4294967296 - 2147483648

/-- The division `a / b` of `int` values: C truncates toward zero. -/
def int_div (a b : Int) : Int := Int.tdiv a b

/-! ## uio -/

/-- The direction of a transfer, `enum uio_rw`. -/
inductive uio_rw where
  | UIO_READ
  | UIO_WRITE
  deriving DecidableEq, Repr

/-- The part of `struct uio` the system calls use.  `uio_iov` is the contents
of the one buffer the uio describes: the bytes to be written for a write, the
buffer as the transfer left it for a read. -/
structure uio where
  uio_iov : List Byte
  uio_offset : Nat
  uio_resid : Nat
  uio_rw : uio_rw
  deriving DecidableEq, Repr

/-- The call `uio_kinit(&iov, &u, kbuf, len, pos, rw)`. -/
def uio_kinit (kbuf : List Byte) (len pos : Nat) (rw : uio_rw) : uio :=
  { uio_iov := kbuf, uio_offset := pos, uio_resid := len, uio_rw := rw }

/-! ## The virtual file system -/

/-- The operations the system calls consume from the VFS layer, over a VFS
state `σ`.  A vnode is named by a number.  `VOP_READ` and `VOP_WRITE` give the
result code, the uio as the operation left it and the new VFS state;
`VOP_STAT` gives the result code and the `st_size` found in the stat buffer
afterwards. -/
structure Vfs (σ : Type) where
  vfs_open : σ → String → Nat → Nat → Except Errno (Nat × σ)
  vfs_close : σ → Nat → σ
  VOP_READ : σ → Nat → uio → Option Errno × uio × σ
  VOP_WRITE : σ → Nat → uio → Option Errno × uio × σ
  VOP_STAT : σ → Nat → Option Errno × Nat

/-! ## Open-file objects and the descriptor table -/

/-- The fields of `struct openfile`.  `of_offsetlock` is true while the lock is
held. -/
structure openfile where
  of_vnode : Nat
  of_accmode : Nat
  of_offsetlock : Bool
  of_offset : Nat
  of_refcount : Nat
  deriving DecidableEq, Repr

/-- The kernel state the file system calls work on: the VFS state, the
open-file objects (a `struct openfile *` is an index into `openfiles`) and the
slots of `curproc->p_filetable` (its length is OPEN_MAX). -/
structure kernel (σ : Type) where
  fs : σ
  openfiles : List openfile
  ft_openfiles : List (Option Nat)

/-- The object a `struct openfile *` points to. -/
def deref {σ : Type} (k : kernel σ) (file : Nat) : openfile :=
  k.openfiles.getD file
    { of_vnode := 0, of_accmode := 0, of_offsetlock := false, of_offset := 0, of_refcount := 0 }

/-- An assignment to fields of `*file`. -/
def assign {σ : Type} (k : kernel σ) (file : Nat) (g : openfile → openfile) : kernel σ :=
  { k with openfiles := k.openfiles.set file (g (deref k file)) }

/-- The call `lock_acquire(file->of_offsetlock)`: `none` when the lock is held,
in which case the call does not return; otherwise the state with the lock
held. -/
def lock_acquire {σ : Type} (k : kernel σ) (file : Nat) : Option (kernel σ) :=
  if (deref k file).of_offsetlock = true then none
  else some (assign k file (fun f => { f with of_offsetlock := true }))

/-- The call `lock_release(file->of_offsetlock)`. -/
def lock_release {σ : Type} (k : kernel σ) (file : Nat) : kernel σ :=
  assign k file (fun f => { f with of_offsetlock := false })

/-- Modelled from the spec: `openfile_open` of openfile.c (not in the source),
the operation "create" of the Open-File Object: resolves the path through the
VFS, surfaces the error of the VFS verbatim, and on success gives a new object
with refcount 1, offset 0 and the access mode derived from the flags. -/
def openfile_open {σ : Type} (V : Vfs σ) (k : kernel σ) (filename : String)
    (openflags mode : Nat) : Except Errno (Nat × kernel σ) :=
  match V.vfs_open k.fs filename openflags mode with
  | .error e => .error e
  | .ok (vn, fs1) =>
    .ok (k.openfiles.length,
      { k with
        fs := fs1
        openfiles := k.openfiles ++
          [{ of_vnode := vn, of_accmode := openflags &&& O_ACCMODE, of_offsetlock := false,
             of_offset := 0, of_refcount := 1 }] })

/-- Modelled from the spec: `openfile_decref` of openfile.c (not in the
source): decrements the reference count; the decrement that drives the count
to zero releases the underlying resource, and the object is destroyed (it
stays in the list with count 0). -/
def openfile_decref {σ : Type} (V : Vfs σ) (k : kernel σ) (file : Nat) : kernel σ :=
  let f := deref k file
  let k1 := assign k file (fun f => { f with of_refcount := f.of_refcount - 1 })
  if f.of_refcount = 1 then { k1 with fs := V.vfs_close k1.fs f.of_vnode } else k1

/-- Modelled from the spec: `filetable_okfd` of filetable.c (not in the
source): a slot index is valid while 0 ≤ index < capacity. -/
def filetable_okfd {σ : Type} (k : kernel σ) (fd : Int) : Bool :=
  decide (0 ≤ fd) && decide (fd < (k.ft_openfiles.length : Int))

/-- The scan of `filetable_place`: stores `file` in the lowest free slot and
gives its index. -/
def place_scan (file : Nat) : List (Option Nat) → Option (Nat × List (Option Nat))
  | [] => none
  | none :: rest => some (0, some file :: rest)
  | some g :: rest =>
    match place_scan file rest with
    | none => none
    | some (fd, rest1) => some (fd + 1, some g :: rest1)

/-- Modelled from the spec: `filetable_place` of filetable.c (not in the
source), the operation "place": scans for the lowest free slot, fails with
EMFILE if there is none, otherwise stores the reference (no reference count
change) and gives the slot index. -/
def filetable_place {σ : Type} (k : kernel σ) (file : Nat) : Except Errno (Nat × kernel σ) :=
  match place_scan file k.ft_openfiles with
  | none => .error EMFILE
  | some (fd, t) => .ok (fd, { k with ft_openfiles := t })

/-- Modelled from the spec: `filetable_get` of filetable.c (not in the
source), the operation "get": fails with EBADF (InvalidHandle) if the handle
is out of range or the slot is empty, otherwise gives the stored reference. -/
def filetable_get {σ : Type} (k : kernel σ) (fd : Int) : Except Errno Nat :=
  if filetable_okfd k fd then
    match k.ft_openfiles.getD fd.toNat none with
    | none => .error EBADF
    | some file => .ok file
  else .error EBADF

/-- Modelled from the spec: `filetable_put` of filetable.c (not in the
source), the operation "put": the bookend of `filetable_get`, a no-op. -/
def filetable_put {σ : Type} (k : kernel σ) (_fd : Int) (_file : Nat) : kernel σ := k

/-- Modelled from the spec: `filetable_placeat` of filetable.c (not in the
source), the operation "replace_at": fails fatally (`none`) if the handle is
out of range, otherwise stores the new value and gives what was there before
(possibly `NULL`). -/
def filetable_placeat {σ : Type} (k : kernel σ) (newfile : Option Nat) (fd : Int) :
    Option (Option Nat × kernel σ) :=
  if filetable_okfd k fd then
    some (k.ft_openfiles.getD fd.toNat none,
      { k with ft_openfiles := k.ft_openfiles.set fd.toNat newfile })
  else none

/-! ## User pointers -/

/-- A user-space pointer to a path name, represented by what
`copyinstr(upath, kpath, PATH_MAX, NULL)` makes of it: the string copied in,
or the error (EFAULT, ENAMETOOLONG). -/
abbrev const_userptr_t := Except Errno String

/-- The call `copyinstr(upath, kpath, PATH_MAX, NULL)`. -/
def copyinstr (upath : const_userptr_t) : Except Errno String := upath

/-! ## The system calls -/

/-- What a system call leaves behind: the value it returns (`none` is 0), the
`int` stored through `retval` if one was stored, the contents of the
caller's buffer (for `sys_read`; empty for the other calls), and the kernel
state. -/
structure sysret (σ : Type) where
  result : Option Errno
  retval : Option Int
  buf : List Byte
  k : kernel σ

/-- How a call ends: it returns; a `KASSERT` fails and the kernel panics; it
waits in `lock_acquire` for a lock that is held and does not return; or the
bound on its loop is used up. -/
inductive Outcome (α : Type) where
  | returns (a : α)
  | panics
  | blocks
  | diverges

/-- The constant `allflags` of `sys_open`. -/
def allflags : Nat := O_ACCMODE ||| O_CREAT ||| O_EXCL ||| O_TRUNC ||| O_APPEND ||| O_NOCTTY

/-- The function `sys_open`. -/
def sys_open {σ : Type} (V : Vfs σ) (upath : const_userptr_t) (flags mode : Nat)
    (k : kernel σ) : sysret σ :=
  if flags = allflags then
    { result := some EINVAL, retval := none, buf := [], k := k }
  else
    match copyinstr upath with
    | .error _ => { result := some EFAULT, retval := none, buf := [], k := k }
    | .ok kpath =>
      match openfile_open V k kpath flags mode with
      | .error _ => { result := some EFAULT, retval := none, buf := [], k := k }
      | .ok (file, k1) =>
        match filetable_place k1 file with
        | .error _ => { result := some EMFILE, retval := none, buf := [], k := k1 }
        | .ok (fd, k2) => { result := none, retval := some (fd : Int), buf := [], k := k2 }

/-- The function `sys_read`.  `buf` is the contents of the caller's buffer
before the call. -/
def sys_read {σ : Type} (V : Vfs σ) (fd : Int) (buf : List Byte) (size : Nat)
    (k : kernel σ) : Outcome (sysret σ) :=
  match filetable_get k fd with
  | .error e => .returns { result := some e, retval := none, buf := buf, k := k }
  | .ok file =>
    match lock_acquire k file with
    | none => .blocks
    | some k1 =>
      if (deref k1 file).of_accmode = O_WRONLY then
        .returns { result := some EACCES, retval := none, buf := buf, k := lock_release k1 file }
      else
        let r := V.VOP_READ k1.fs (deref k1 file).of_vnode
          (uio_kinit buf size (deref k1 file).of_offset .UIO_READ)
        let k2 := { k1 with fs := r.2.2 }
        if r.1.isSome then
          .returns { result := r.1, retval := none, buf := r.2.1.uio_iov, k := k2 }
        else
          let k3 := assign k2 file (fun f => { f with of_offset := r.2.1.uio_offset })
          let k4 := lock_release k3 file
          let k5 := filetable_put k4 fd file
          .returns { result := r.1, retval := some (to_int ((size : Int) - r.2.1.uio_resid)),
                     buf := r.2.1.uio_iov, k := k5 }

/-- The function `sys_write`.  `buf` is the contents of the caller's buffer. -/
def sys_write {σ : Type} (V : Vfs σ) (fd : Int) (buf : List Byte) (size : Nat)
    (k : kernel σ) : Outcome (sysret σ) :=
  match filetable_get k fd with
  | .error e => .returns { result := some e, retval := none, buf := buf, k := k }
  | .ok file =>
    match lock_acquire k file with
    | none => .blocks
    | some k1 =>
      if (deref k1 file).of_accmode = O_RDONLY then
        .returns { result := some EACCES, retval := none, buf := buf, k := lock_release k1 file }
      else
        let r := V.VOP_WRITE k1.fs (deref k1 file).of_vnode
          (uio_kinit buf size (deref k1 file).of_offset .UIO_WRITE)
        let k2 := { k1 with fs := r.2.2 }
        if r.1.isSome then
          .returns { result := r.1, retval := none, buf := buf, k := k2 }
        else
          let k3 := assign k2 file (fun f => { f with of_offset := r.2.1.uio_offset })
          let k4 := lock_release k3 file
          let k5 := filetable_put k4 fd file
          .returns { result := r.1, retval := some (to_int ((size : Int) - r.2.1.uio_resid)),
                     buf := buf, k := k5 }

/-- The function `sys_close`.  The `KASSERT` on `filetable_okfd` panics the
kernel when it fails. -/
def sys_close {σ : Type} (V : Vfs σ) (fd : Int) (k : kernel σ) : Outcome (sysret σ) :=
  if filetable_okfd k fd then
    match filetable_placeat k none fd with
    | none => .panics
    | some (file, k1) =>
      match file with
      | none => .returns { result := some ENOENT, retval := none, buf := [], k := k1 }
      | some f =>
        .returns { result := none, retval := none, buf := [], k := openfile_decref V k1 f }
  else .panics

/-- The loop of `sys_meld`, with the `int` values `size` and `counter` and the
contents of the two 4-byte buffers.  The first argument bounds the number of
tests of the loop condition (`diverges` when it is used up; `sys_meld` passes
enough).  The loop gives `some e` when an iteration left through
`return result`, and `none` when the condition became false. -/
def meld_loop {σ : Type} (V : Vfs σ) (file1 file2 file3 : Nat) (size : Int) :
    Nat → Int → List Byte → List Byte → kernel σ → Outcome (Option Errno × kernel σ)
  | 0, _, _, _, _ => .diverges
  | fuel + 1, counter, buffer1, buffer2, k =>
    if counter < int_div size 2 then
      -- file1 reading 4 bytes
      match lock_acquire k file1 with
      | none => .blocks
      | some k =>
      let r1 := V.VOP_READ k.fs (deref k file1).of_vnode
        (uio_kinit buffer1 4 (deref k file1).of_offset .UIO_READ)
      let k := { k with fs := r1.2.2 }
      if r1.1.isSome then .returns (r1.1, k) else
      let k := assign k file1 (fun f => { f with of_offset := r1.2.1.uio_offset })
      let k := lock_release k file1
      let buffer1 := r1.2.1.uio_iov
      -- file2 reading 4 bytes
      match lock_acquire k file2 with
      | none => .blocks
      | some k =>
      let r2 := V.VOP_READ k.fs (deref k file2).of_vnode
        (uio_kinit buffer2 4 (deref k file2).of_offset .UIO_READ)
      let k := { k with fs := r2.2.2 }
      if r2.1.isSome then .returns (r2.1, k) else
      let k := assign k file2 (fun f => { f with of_offset := r2.2.1.uio_offset })
      let k := lock_release k file2
      let buffer2 := r2.2.1.uio_iov
      -- write 4 bytes from file 1 to the meld file
      match lock_acquire k file3 with
      | none => .blocks
      | some k =>
      let w1 := V.VOP_WRITE k.fs (deref k file3).of_vnode
        (uio_kinit buffer1 4 (deref k file3).of_offset .UIO_WRITE)
      let k := { k with fs := w1.2.2 }
      if w1.1.isSome then .returns (w1.1, k) else
      let k := assign k file3 (fun f => { f with of_offset := w1.2.1.uio_offset })
      let k := lock_release k file3
      -- write 4 bytes from file 2 to the meld file
      match lock_acquire k file3 with
      | none => .blocks
      | some k =>
      let w2 := V.VOP_WRITE k.fs (deref k file3).of_vnode
        (uio_kinit buffer2 4 (deref k file3).of_offset .UIO_WRITE)
      let k := { k with fs := w2.2.2 }
      if w2.1.isSome then .returns (w2.1, k) else
      let k := assign k file3 (fun f => { f with of_offset := w2.2.1.uio_offset })
      let k := lock_release k file3
      meld_loop V file1 file2 file3 size fuel (to_int (counter + 4)) buffer1 buffer2 k
    else .returns (none, k)

/-- The end of `sys_meld`, from "set the return value correctly" on: the
three `filetable_placeat` calls (all with the same `fd`), the three tests for
`NULL` and the three `openfile_decref` calls. -/
def meld_cleanup {σ : Type} (V : Vfs σ) (file3 fd : Nat) (k : kernel σ) : Outcome (sysret σ) :=
  let retval := to_int ((deref k file3).of_offset : Int)
  if filetable_okfd k (fd : Int) then
    match filetable_placeat k none (fd : Int) with
    | none => .panics
    | some (file1, k) =>
    match filetable_placeat k none (fd : Int) with
    | none => .panics
    | some (file2, k) =>
    match filetable_placeat k none (fd : Int) with
    | none => .panics
    | some (file3, k) =>
    match file1 with
    | none => .returns { result := some ENOENT, retval := some retval, buf := [], k := k }
    | some file1 =>
    match file2 with
    | none => .returns { result := some ENOENT, retval := some retval, buf := [], k := k }
    | some file2 =>
    match file3 with
    | none => .returns { result := some ENOENT, retval := some retval, buf := [], k := k }
    | some file3 =>
      let k := openfile_decref V k file1
      let k := openfile_decref V k file2
      let k := openfile_decref V k file3
      .returns { result := none, retval := some retval, buf := [], k := k }
  else .panics

/-- How `sys_meld` goes on after its loop: an iteration that left through
`return result` has returned from `sys_meld`; after a loop that ran to its end
comes the end of the function. -/
def meld_finish {σ : Type} (V : Vfs σ) (file3 fd : Nat) :
    Outcome (Option Errno × kernel σ) → Outcome (sysret σ)
  | .diverges => .diverges
  | .panics => .panics
  | .blocks => .blocks
  | .returns (some e, k) => .returns { result := some e, retval := none, buf := [], k := k }
  | .returns (none, k) => meld_cleanup V file3 fd k

/-- The function `sys_meld`.  `buffer1` and `buffer2` are the contents, at
entry, of the two 4-byte buffers the function gets from `kmalloc`, which does
not initialise them. -/
def sys_meld {σ : Type} (V : Vfs σ) (pn1 pn2 pn3 : const_userptr_t)
    (buffer1 buffer2 : List Byte) (k : kernel σ) : Outcome (sysret σ) :=
  match copyinstr pn1 with
  | .error e => .returns { result := some e, retval := none, buf := [], k := k }
  | .ok kpath_pn1 =>
  match copyinstr pn2 with
  | .error e => .returns { result := some e, retval := none, buf := [], k := k }
  | .ok kpath_pn2 =>
  match copyinstr pn3 with
  | .error e => .returns { result := some e, retval := none, buf := [], k := k }
  | .ok kpath_pn3 =>
  match openfile_open V k kpath_pn1 O_RDWR 0o664 with
  | .error _ => .returns { result := some ENOENT, retval := none, buf := [], k := k }
  | .ok (file1, k) =>
  match openfile_open V k kpath_pn2 O_RDWR 0o664 with
  | .error _ => .returns { result := some ENOENT, retval := none, buf := [], k := k }
  | .ok (file2, k) =>
  match openfile_open V k kpath_pn3 (O_WRONLY ||| O_CREAT ||| O_EXCL) 0o664 with
  | .error _ => .returns { result := some EEXIST, retval := none, buf := [], k := k }
  | .ok (file3, k) =>
  match filetable_place k file1 with
  | .error e => .returns { result := some e, retval := none, buf := [], k := k }
  | .ok (_, k) =>
  match filetable_place k file2 with
  | .error e => .returns { result := some e, retval := none, buf := [], k := k }
  | .ok (_, k) =>
  match filetable_place k file3 with
  | .error e => .returns { result := some e, retval := none, buf := [], k := k }
  | .ok (fd_ret, k) =>
    let fd := fd_ret
    -- size of file1
    let size := to_int ((V.VOP_STAT k.fs (deref k file1).of_vnode).2 : Int)
    -- size of file2
    let size := to_int (size + ((V.VOP_STAT k.fs (deref k file2).of_vnode).2 : Int))
    meld_finish V file3 fd
      (meld_loop V file1 file2 file3 size ((int_div size 2).toNat + 1) 0 buffer1 buffer2 k)

/-! ## A file store in memory -/

/-- The state of the in-memory file store: the files in creation order, each a
name and its bytes.  The vnode of a file is its position in the list. -/
abbrev memfs := List (String × List Byte)

/-- The position of the file named `path`. -/
def memfs_find : memfs → String → Option Nat
  | [], _ => none
  | (name, _) :: rest, path =>
    if name = path then some 0 else
      match memfs_find rest path with
      | none => none
      | some vn => some (vn + 1)

/-- The bytes of the file with vnode `vn`. -/
def memfs_data (fs : memfs) (vn : Nat) : List Byte := (fs.getD vn ("", [])).2

/-- The bytes of the file named `path`, if there is one. -/
def memfs_file (fs : memfs) (path : String) : Option (List Byte) :=
  match memfs_find fs path with
  | none => none
  | some vn => some (memfs_data fs vn)

/-- Modelled from the spec: `resolve_or_create(path, flags, mode)` of the VFS
adapter (external to the source) on the file store: EINVAL when the
access-mode bits select none of the three modes, EEXIST for fail-if-exists on
an existing file, ENOENT for a missing file without create-if-missing; a
created file is empty, truncate-on-open empties the file. -/
def memfs_open (fs : memfs) (path : String) (flags _mode : Nat) : Except Errno (Nat × memfs) :=
  if flags &&& O_ACCMODE = O_ACCMODE then .error EINVAL else
  match memfs_find fs path with
  | some vn =>
    if flags &&& O_CREAT ≠ 0 ∧ flags &&& O_EXCL ≠ 0 then .error EEXIST
    else if flags &&& O_TRUNC ≠ 0 then .ok (vn, fs.set vn (path, []))
    else .ok (vn, fs)
  | none =>
    if flags &&& O_CREAT ≠ 0 then .ok (fs.length, fs ++ [(path, [])])
    else .error ENOENT

/-- Modelled from the spec: `read(vnode_handle, offset, buffer, length)` of the
VFS adapter on the file store: transfers the bytes from `uio_offset` on, at
most `uio_resid` of them and fewer at the end of the file, into the front of
the buffer, and advances the uio by the number transferred. -/
def memfs_read (fs : memfs) (vn : Nat) (u : uio) : Option Errno × uio × memfs :=
  let data := ((memfs_data fs vn).drop u.uio_offset).take u.uio_resid
  (none,
   { u with
     uio_iov := data ++ u.uio_iov.drop data.length
     uio_offset := u.uio_offset + data.length
     uio_resid := u.uio_resid - data.length },
   fs)

/-- Modelled from the spec: `write(vnode_handle, offset, buffer, length)` of
the VFS adapter on the file store: stores the first `uio_resid` bytes of the
buffer at `uio_offset` (over the bytes there, extending the file, filling a
gap with zeros) and advances the uio by the number transferred. -/
def memfs_write (fs : memfs) (vn : Nat) (u : uio) : Option Errno × uio × memfs :=
  let data := u.uio_iov.take u.uio_resid
  let old := memfs_data fs vn
  let new := old.take u.uio_offset ++ List.replicate (u.uio_offset - old.length) 0 ++ data ++
    old.drop (u.uio_offset + data.length)
  (none,
   { u with
     uio_offset := u.uio_offset + data.length
     uio_resid := u.uio_resid - data.length },
   fs.set vn ((fs.getD vn ("", [])).1, new))

/-- The in-memory file store as a `Vfs`. -/
def memvfs : Vfs memfs where
  vfs_open := memfs_open
  vfs_close := fun fs _ => fs
  VOP_READ := memfs_read
  VOP_WRITE := memfs_write
  VOP_STAT := fun fs vn => (none, (memfs_data fs vn).length)

/-- A `Vfs` over the same store whose device fails: every read and every write
ends with the error `e` and transfers nothing. -/
def failing_vfs (e : Errno) : Vfs memfs :=
  { memvfs with
    VOP_READ := fun fs _ u => (some e, u, fs)
    VOP_WRITE := fun fs _ u => (some e, u, fs) }

/-! ## The interleaving, in the words of the specification -/

/-- Chunk `i` of a file: its bytes `4 * i` to `4 * i + 3`. -/
def chunk (c : List Byte) (i : Nat) : List Byte := (c.drop (4 * i)).take 4

/-- Chunk 0 of file1, chunk 0 of file2, chunk 1 of file1, chunk 1 of file2,
and so on through chunk `m - 1` of each. -/
def interleave_upto (c1 c2 : List Byte) : Nat → List Byte
  | 0 => []
  | m + 1 => interleave_upto c1 c2 m ++ chunk c1 m ++ chunk c2 m

/-- What the specification says the destination holds after melding two files
of the same length: the 4-byte chunks of the two files, alternating, through
chunk `n / 4 - 1`. -/
def meld_spec (c1 c2 : List Byte) : List Byte := interleave_upto c1 c2 (c1.length / 4)

/-- A `Vfs` over the same store whose vnodes are sinks, like the null device:
a write consumes every byte offered, whatever their number. -/
def sink_vfs : Vfs memfs :=
  { memvfs with
    VOP_WRITE := fun fs _ u =>
      (none, { u with uio_offset := u.uio_offset + u.uio_resid, uio_resid := 0 }, fs) }

/-! ## The example of testbin/meld -/

/-- The array `writebuf1` of testbin/meld, "AAAABBBBCCCC". -/
def writebuf1 : List Byte := [65, 65, 65, 65, 66, 66, 66, 66, 67, 67, 67, 67]

/-- The array `writebuf2` of testbin/meld, "ddddeeeeffff". -/
def writebuf2 : List Byte := [100, 100, 100, 100, 101, 101, 101, 101, 102, 102, 102, 102]

/-- The file store when testbin/meld calls `meld`: file1 and file2 written,
file3 not there. -/
def meld_fs : memfs := [("file1", writebuf1), ("file2", writebuf2)]

/-- A kernel state over `fs` with no open files and a table of `n` slots. -/
def fresh (fs : memfs) (n : Nat) : kernel memfs :=
  { fs := fs, openfiles := [], ft_openfiles := List.replicate n none }

/-- The state after `open("file1", flags)` in a process with `n` free slots
and no open files, over the files of testbin/meld. -/
def opened (flags n : Nat) : kernel memfs :=
  (sys_open memvfs (.ok "file1") flags 0 (fresh meld_fs n)).k

/-- A file of 2^30 bytes, each "A". -/
def big1 : List Byte := List.replicate 1073741824 65

/-- A file of 2^30 bytes, each "d". -/
def big2 : List Byte := List.replicate 1073741824 100

/-- A file store with two files of 2^30 bytes and no file3. -/
def big_fs : memfs := [("file1", big1), ("file2", big2)]

/-- Contents for the two buffers of `sys_meld` at entry: whatever `kmalloc`
left there. -/
def stale : List Byte := [222, 173, 190, 239]

/-- The state after `open("file1", O_RDWR)` twice: handles 0 and 1 on two
objects on the same file, both at offset 0. -/
def opened_twice : kernel memfs :=
  (sys_open memvfs (.ok "file1") O_RDWR 0 (opened O_RDWR 4)).k

/-- The state of the loop of `sys_meld` on the file store after `i` iterations:
the three objects are distinct and live with their offset locks free, the two
sources stand at offset `4 * i` and the destination at `8 * i`, the sources hold `c1` and `c2`, and the
destination holds the first `i` chunk pairs. -/
structure MeldInv (k : kernel memfs) (f1 f2 f3 v1 v2 v3 : Nat) (c1 c2 : List Byte)
    (ft : List (Option Nat)) (p3 : String) (i : Nat) : Prop where
  len1 : f1 < k.openfiles.length
  len2 : f2 < k.openfiles.length
  len3 : f3 < k.openfiles.length
  ne12 : f1 ≠ f2
  ne13 : f1 ≠ f3
  ne23 : f2 ≠ f3
  vn1 : (deref k f1).of_vnode = v1
  vn2 : (deref k f2).of_vnode = v2
  vn3 : (deref k f3).of_vnode = v3
  off1 : (deref k f1).of_offset = 4 * i
  off2 : (deref k f2).of_offset = 4 * i
  off3 : (deref k f3).of_offset = 8 * i
  lk1 : (deref k f1).of_offsetlock = false
  lk2 : (deref k f2).of_offsetlock = false
  lk3 : (deref k f3).of_offsetlock = false
  d1 : memfs_data k.fs v1 = c1
  d2 : memfs_data k.fs v2 = c2
  d3 : memfs_data k.fs v3 = interleave_upto c1 c2 i
  v3lt : v3 < k.fs.length
  v13 : v1 ≠ v3
  v23 : v2 ≠ v3
  table : k.ft_openfiles = ft
  find : memfs_find k.fs p3 = some v3

end OS161

namespace OS161
open Errno

/-! ## Machine integers -/

theorem to_int_of_range (x : Int) (h1 : -2147483648 ≤ x) (h2 : x < 2147483648) :
    to_int x = x := by
  unfold to_int; omega

theorem int_div_two_nonneg (a : Int) (h : 0 ≤ a) : int_div a 2 = a / 2 :=
  Int.tdiv_eq_ediv h (by decide)

theorem int_div_two_neg (a : Int) (h : a < 0) : int_div a 2 ≤ 0 := by
  have h1 : int_div a 2 = -((-a).tdiv 2) := by
    unfold int_div
    rw [Int.neg_tdiv, Int.neg_neg]
  have h2 : 0 ≤ (-a).tdiv 2 := Int.tdiv_nonneg (by omega) (by decide)
  omega

theorem int_div_two_lt (a : Int) (h : a < 2147483648) : int_div a 2 < 1073741824 := by
  by_cases h0 : 0 ≤ a
  · rw [int_div_two_nonneg a h0]; omega
  · have := int_div_two_neg a (by omega); omega

theorem to_int_lt (x : Int) : to_int x < 2147483648 := by
  unfold to_int; omega

/-! ## Reading and assigning fields of open-file objects -/

@[simp] theorem assign_fs {σ : Type} (k : kernel σ) (file : Nat) (g : openfile → openfile) :
    (assign k file g).fs = k.fs := rfl

@[simp] theorem assign_ft {σ : Type} (k : kernel σ) (file : Nat) (g : openfile → openfile) :
    (assign k file g).ft_openfiles = k.ft_openfiles := rfl

@[simp] theorem assign_length {σ : Type} (k : kernel σ) (file : Nat) (g : openfile → openfile) :
    (assign k file g).openfiles.length = k.openfiles.length := by
  simp [assign]

theorem deref_assign_self {σ : Type} (k : kernel σ) (file : Nat) (g : openfile → openfile)
    (h : file < k.openfiles.length) : deref (assign k file g) file = g (deref k file) := by
  simp [deref, assign, List.getD_eq_getElem?_getD, List.getElem?_set, h]

theorem deref_assign_ne {σ : Type} (k : kernel σ) (file other : Nat) (g : openfile → openfile)
    (h : file ≠ other) : deref (assign k file g) other = deref k other := by
  simp [deref, assign, List.getD_eq_getElem?_getD, List.getElem?_set, h]

@[simp] theorem deref_fs {σ : Type} (k : kernel σ) (fs1 : σ) (file : Nat) :
    deref { k with fs := fs1 } file = deref k file := rfl

@[simp] theorem deref_mk {σ : Type} (a : σ) (k : kernel σ) (t : List (Option Nat)) (file : Nat) :
    deref { fs := a, openfiles := k.openfiles, ft_openfiles := t } file = deref k file := rfl

@[simp] theorem assign_mk_openfiles {σ : Type} (a : σ) (k : kernel σ) (t : List (Option Nat))
    (file : Nat) (g : openfile → openfile) :
    (assign { fs := a, openfiles := k.openfiles, ft_openfiles := t } file g).openfiles =
      (assign k file g).openfiles := rfl

theorem deref_append {σ : Type} (a : σ) (objs l : List openfile) (t : List (Option Nat))
    (j : Nat) :
    deref { fs := a, openfiles := objs ++ l, ft_openfiles := t } (objs.length + j) =
      l.getD j
        { of_vnode := 0, of_accmode := 0, of_offsetlock := false, of_offset := 0,
          of_refcount := 0 } := by
  simp [deref, List.getD_eq_getElem?_getD, List.getElem?_append_right]

theorem deref_assign {σ : Type} (k : kernel σ) (file other : Nat) (g : openfile → openfile) :
    deref (assign k file g) other =
      if other = file ∧ file < k.openfiles.length then g (deref k file) else deref k other := by
  by_cases h : other = file
  · subst h
    by_cases hl : other < k.openfiles.length
    · simp [hl, deref_assign_self]
    · have hn : k.openfiles[other]? = none := List.getElem?_eq_none (by omega)
      simp [hl, deref, assign, List.getD_eq_getElem?_getD, List.getElem?_set, hn]
  · simp [h, deref_assign_ne _ _ _ _ (Ne.symm h)]

theorem lock_acquire_free {σ : Type} (k : kernel σ) (file : Nat)
    (h : (deref k file).of_offsetlock = false) :
    lock_acquire k file = some (assign k file (fun f => { f with of_offsetlock := true })) := by
  simp [lock_acquire, h]

theorem lock_acquire_held {σ : Type} (k : kernel σ) (file : Nat)
    (h : (deref k file).of_offsetlock = true) : lock_acquire k file = none := by
  simp [lock_acquire, h]

/-! ## The file store -/

theorem memfs_data_set_self (fs : memfs) (vn : Nat) (x : String × List Byte)
    (h : vn < fs.length) : memfs_data (fs.set vn x) vn = x.2 := by
  simp [memfs_data, List.getD_eq_getElem?_getD, List.getElem?_set, h]

theorem memfs_data_set_ne (fs : memfs) (vn v : Nat) (x : String × List Byte)
    (h : vn ≠ v) : memfs_data (fs.set vn x) v = memfs_data fs v := by
  simp [memfs_data, List.getD_eq_getElem?_getD, List.getElem?_set, h]

theorem memfs_find_lt (fs : memfs) (path : String) (vn : Nat)
    (h : memfs_find fs path = some vn) : vn < fs.length := by
  induction fs generalizing vn with
  | nil => simp [memfs_find] at h
  | cons a rest ih =>
    obtain ⟨name, d⟩ := a
    simp only [memfs_find] at h
    split at h
    · cases h; simp
    · split at h
      · cases h
      · rename_i v hv
        cases h
        have := ih v hv
        simp; omega

theorem memfs_find_set (fs : memfs) (vn : Nat) (d : List Byte) (path : String) :
    memfs_find (fs.set vn ((fs.getD vn ("", [])).1, d)) path = memfs_find fs path := by
  induction fs generalizing vn with
  | nil => simp [memfs_find]
  | cons a rest ih =>
    obtain ⟨name, d0⟩ := a
    cases vn with
    | zero => simp [memfs_find]
    | succ v =>
      have := ih v
      simp only [List.getD_eq_getElem?_getD] at this
      simp [memfs_find, this]

theorem memfs_find_append_new (fs : memfs) (path : String) (d : List Byte)
    (h : memfs_find fs path = none) : memfs_find (fs ++ [(path, d)]) path = some fs.length := by
  induction fs with
  | nil => simp [memfs_find]
  | cons a rest ih =>
    obtain ⟨name, d0⟩ := a
    simp only [memfs_find] at h
    split at h
    · cases h
    · rename_i hne
      split at h
      · rename_i hnone
        simp [memfs_find, hne, ih hnone]
      · cases h

theorem memfs_data_append_lt (fs l : memfs) (vn : Nat) (h : vn < fs.length) :
    memfs_data (fs ++ l) vn = memfs_data fs vn := by
  simp [memfs_data, List.getD_eq_getElem?_getD, List.getElem?_append_left h]

theorem memfs_data_append_length (fs : memfs) (x : String × List Byte) :
    memfs_data (fs ++ [x]) fs.length = x.2 := by
  simp [memfs_data, List.getD_eq_getElem?_getD]

/-! ## Chunks -/

theorem chunk_length (c : List Byte) (i : Nat) (h : 4 * i + 4 ≤ c.length) :
    (chunk c i).length = 4 := by
  simp [chunk]; omega

theorem interleave_upto_length (c1 c2 : List Byte) (m : Nat)
    (h1 : 4 * m ≤ c1.length) (h2 : 4 * m ≤ c2.length) :
    (interleave_upto c1 c2 m).length = 8 * m := by
  induction m with
  | zero => simp [interleave_upto]
  | succ m ih =>
    have i1 := ih (by omega) (by omega)
    have l1 := chunk_length c1 m (by omega)
    have l2 := chunk_length c2 m (by omega)
    simp [interleave_upto, i1, l1, l2]; omega

/-! ## The descriptor table -/

theorem place_scan_free (file : Nat) (t : List (Option Nat)) (h : 0 < t.count none) :
    ∃ fd t1, place_scan file t = some (fd, t1) ∧ fd < t1.length ∧
      t1.length = t.length ∧ t1.count none = t.count none - 1 := by
  induction t with
  | nil => simp at h
  | cons a rest ih =>
    cases a with
    | none => exact ⟨0, some file :: rest, rfl, by simp, by simp, by simp⟩
    | some g =>
      have h0 : 0 < rest.count none := by simpa using h
      obtain ⟨fd, t1, e, hlt, hlen, hc⟩ := ih h0
      exact ⟨fd + 1, some g :: t1, by simp [place_scan, e], by simp [hlt], by simp [hlen],
        by simp [hc]⟩

/-! ## Transfers on the file store -/

theorem memfs_read_full (fs : memfs) (vn : Nat) (b : List Byte) (len off : Nat) (rw : uio_rw)
    (h : off + len ≤ (memfs_data fs vn).length) :
    memfs_read fs vn (uio_kinit b len off rw) =
      (none,
       { uio_iov := ((memfs_data fs vn).drop off).take len ++ b.drop len
         uio_offset := off + len, uio_resid := 0, uio_rw := rw },
       fs) := by
  have hmin : min len ((memfs_data fs vn).length - off) = len := by omega
  simp [memfs_read, uio_kinit, hmin]

theorem memfs_write_at_end (fs : memfs) (vn : Nat) (b : List Byte) (len off : Nat) (rw : uio_rw)
    (h : off = (memfs_data fs vn).length) (hb : len ≤ b.length) :
    memfs_write fs vn (uio_kinit b len off rw) =
      (none,
       { uio_iov := b, uio_offset := off + len, uio_resid := 0, uio_rw := rw },
       fs.set vn ((fs.getD vn ("", [])).1, memfs_data fs vn ++ b.take len)) := by
  have hmin : min len b.length = len := by omega
  subst h
  have hdrop : List.drop ((memfs_data fs vn).length + len) (memfs_data fs vn) = [] :=
    List.drop_eq_nil_of_le (by omega)
  simp [memfs_write, uio_kinit, hmin, hdrop]

/-! ## The loop of sys_meld on the file store -/

theorem meld_loop_step (k : kernel memfs) (f1 f2 f3 v1 v2 v3 : Nat) (c1 c2 : List Byte)
    (ft : List (Option Nat)) (p3 : String) (i fuel : Nat) (size : Int) (b1 b2 : List Byte)
    (inv : MeldInv k f1 f2 f3 v1 v2 v3 c1 c2 ft p3 i)
    (hlt : ((4 * i : Nat) : Int) < int_div size 2) (hsmall : 4 * i + 4 < 2147483648)
    (h1 : 4 * i + 4 ≤ c1.length) (h2 : 4 * i + 4 ≤ c2.length) :
    ∃ k1 b3 b4, meld_loop memvfs f1 f2 f3 size (fuel + 1) ((4 * i : Nat) : Int) b1 b2 k =
        meld_loop memvfs f1 f2 f3 size fuel ((4 * (i + 1) : Nat) : Int) b3 b4 k1 ∧
      MeldInv k1 f1 f2 f3 v1 v2 v3 c1 c2 ft p3 (i + 1) := by
  obtain ⟨len1, len2, len3, ne12, ne13, ne23, vn1, vn2, vn3, off1, off2, off3, lk1, lk2, lk3,
    d1, d2, d3, v3lt, v13, v23, table, find⟩ := inv
  have ne21 : f2 ≠ f1 := Ne.symm ne12
  have ne31 : f3 ≠ f1 := Ne.symm ne13
  have ne32 : f3 ≠ f2 := Ne.symm ne23
  have l1 := chunk_length c1 i h1
  have l2 := chunk_length c2 i h2
  have l3 := interleave_upto_length c1 c2 i (by omega) (by omega)
  have hcnt : to_int (((4 * i : Nat) : Int) + 4) = ((4 * (i + 1) : Nat) : Int) := by
    rw [to_int_of_range _ (by omega) (by omega)]
    omega
  have r1 := memfs_read_full k.fs v1 b1 4 (4 * i) .UIO_READ (by rw [d1]; omega)
  have r2 := memfs_read_full k.fs v2 b2 4 (4 * i) .UIO_READ (by rw [d2]; omega)
  rw [d1] at r1
  rw [d2] at r2
  change memfs_read k.fs v1 (uio_kinit b1 4 (4 * i) .UIO_READ) =
    (none, { uio_iov := chunk c1 i ++ b1.drop 4, uio_offset := 4 * i + 4, uio_resid := 0,
             uio_rw := .UIO_READ }, k.fs) at r1
  change memfs_read k.fs v2 (uio_kinit b2 4 (4 * i) .UIO_READ) =
    (none, { uio_iov := chunk c2 i ++ b2.drop 4, uio_offset := 4 * i + 4, uio_resid := 0,
             uio_rw := .UIO_READ }, k.fs) at r2
  have w1 := memfs_write_at_end k.fs v3 (chunk c1 i ++ b1.drop 4) 4 (8 * i) .UIO_WRITE
    (by rw [d3, l3]) (by simp [l1])
  have t1 : (chunk c1 i ++ b1.drop 4).take 4 = chunk c1 i := by
    rw [List.take_append_of_le_length (by omega), List.take_of_length_le (by omega)]
  have t2 : (chunk c2 i ++ b2.drop 4).take 4 = chunk c2 i := by
    rw [List.take_append_of_le_length (by omega), List.take_of_length_le (by omega)]
  rw [t1, d3] at w1
  have e1 : memfs_data (k.fs.set v3 ((k.fs.getD v3 ("", [])).1,
      interleave_upto c1 c2 i ++ chunk c1 i)) v3 = interleave_upto c1 c2 i ++ chunk c1 i :=
    memfs_data_set_self _ _ _ v3lt
  have w2 := memfs_write_at_end (k.fs.set v3 ((k.fs.getD v3 ("", [])).1,
      interleave_upto c1 c2 i ++ chunk c1 i)) v3 (chunk c2 i ++ b2.drop 4) 4 (8 * i + 4)
    .UIO_WRITE (by rw [e1]; simp [l3, l1]) (by simp [l2])
  rw [t2, e1] at w2
  rw [meld_loop, if_pos hlt]
  simp only [memvfs, lock_acquire, lock_release, deref_assign, assign_fs, deref_fs, assign_length,
    len1, len2, len3, ne12, ne13, ne23, ne21, ne31, ne32, vn1, vn2, vn3, off1, off2, off3,
    lk1, lk2, lk3, and_self, and_true, true_and, false_and, if_true, if_false, r1, r2, w1, w2,
    Option.isSome_none, Bool.false_eq_true, hcnt]
  refine ⟨_, _, _, rfl, ?_⟩
  constructor
  · simpa using len1
  · simpa using len2
  · simpa using len3
  · exact ne12
  · exact ne13
  · exact ne23
  · simp [deref_assign, len1, len2, len3, ne12, ne13, ne23, ne21, ne31, ne32, vn1]
  · simp [deref_assign, len1, len2, len3, ne12, ne13, ne23, ne21, ne31, ne32, vn2]
  · simp [deref_assign, len1, len2, len3, ne12, ne13, ne23, ne21, ne31, ne32, vn3]
  · simp [deref_assign, len1, len2, len3, ne12, ne13, ne23, ne21, ne31, ne32, off1]
    omega
  · simp [deref_assign, len1, len2, len3, ne12, ne13, ne23, ne21, ne31, ne32, off2]
    omega
  · simp [deref_assign, len1, len2, len3, ne12, ne13, ne23, ne21, ne31, ne32, off3]
    omega
  · simp [deref_assign, len1, len2, len3, ne12, ne13, ne23, ne21, ne31, ne32, lk1]
  · simp [deref_assign, len1, len2, len3, ne12, ne13, ne23, ne21, ne31, ne32, lk2]
  · simp [deref_assign, len1, len2, len3, ne12, ne13, ne23, ne21, ne31, ne32, lk3]
  · simp [memfs_data_set_ne _ _ _ _ (Ne.symm v13), d1]
  · simp [memfs_data_set_ne _ _ _ _ (Ne.symm v23), d2]
  · simp [memfs_data_set_self, v3lt, interleave_upto]
  · simpa using v3lt
  · exact v13
  · exact v23
  · simpa using table
  · simp only [assign_fs]
    rw [memfs_find_set, memfs_find_set, find]

theorem meld_loop_run (f1 f2 f3 v1 v2 v3 : Nat) (c1 c2 : List Byte)
    (ft : List (Option Nat)) (p3 : String) (m : Nat) (size : Int)
    (hc1 : c1.length = 4 * m) (hc2 : c2.length = 4 * m)
    (hsize : int_div size 2 = ((4 * m : Nat) : Int)) (hsmall : 4 * m < 2147483648) :
    ∀ (j i fuel : Nat) (b1 b2 : List Byte) (k : kernel memfs),
      i + j = m → j < fuel → MeldInv k f1 f2 f3 v1 v2 v3 c1 c2 ft p3 i →
      ∃ k1, meld_loop memvfs f1 f2 f3 size fuel ((4 * i : Nat) : Int) b1 b2 k =
          .returns (none, k1) ∧
        MeldInv k1 f1 f2 f3 v1 v2 v3 c1 c2 ft p3 m := by
  intro j
  induction j with
  | zero =>
    intro i fuel b1 b2 k him hfuel inv
    obtain ⟨fuel, rfl⟩ : ∃ n, fuel = n + 1 := ⟨fuel - 1, by omega⟩
    have hi : i = m := by omega
    subst hi
    refine ⟨k, ?_, inv⟩
    rw [meld_loop, if_neg (by rw [hsize]; omega)]
  | succ j ih =>
    intro i fuel b1 b2 k him hfuel inv
    obtain ⟨fuel, rfl⟩ : ∃ n, fuel = n + 1 := ⟨fuel - 1, by omega⟩
    obtain ⟨k1, b3, b4, hstep, inv1⟩ := meld_loop_step k f1 f2 f3 v1 v2 v3 c1 c2 ft p3 i
      fuel size b1 b2 inv (by rw [hsize]; omega) (by omega) (by omega) (by omega)
    obtain ⟨k2, hrun, inv2⟩ := ih (i + 1) fuel b3 b4 k1 (by omega) (by omega) inv1
    exact ⟨k2, by rw [hstep]; exact hrun, inv2⟩

/-! ## The end of sys_meld -/

theorem openfile_decref_memvfs_fs (k : kernel memfs) (file : Nat) :
    (openfile_decref memvfs k file).fs = k.fs := by
  simp only [openfile_decref]
  split <;> simp [memvfs]

theorem meld_cleanup_returns (file3 fd : Nat) (k : kernel memfs)
    (hfd : fd < k.ft_openfiles.length) :
    ∃ r, meld_cleanup memvfs file3 fd k = .returns r ∧ r.k.fs = k.fs := by
  have hok : filetable_okfd k (fd : Int) = true := by
    simp [filetable_okfd, hfd]
  simp only [meld_cleanup, hok, if_true, filetable_placeat, filetable_okfd, List.length_set,
    Int.toNat_ofNat, Nat.cast_nonneg, decide_True, Bool.true_and, Nat.cast_lt, hfd]
  split
  · exact ⟨_, rfl, rfl⟩
  · split
    · exact ⟨_, rfl, rfl⟩
    · split
      · exact ⟨_, rfl, rfl⟩
      · exact ⟨_, rfl, by simp only [openfile_decref_memvfs_fs]⟩

/-! ## Opening on the file store -/

theorem memvfs_vfs_open : memvfs.vfs_open = memfs_open := rfl

theorem memvfs_VOP_STAT (fs : memfs) (vn : Nat) :
    memvfs.VOP_STAT fs vn = (none, (memfs_data fs vn).length) := rfl

theorem memfs_open_rdwr (fs : memfs) (path : String) (mode vn : Nat)
    (h : memfs_find fs path = some vn) : memfs_open fs path O_RDWR mode = .ok (vn, fs) := by
  have a : ¬ (O_RDWR &&& O_ACCMODE = O_ACCMODE) := by decide
  have b : ¬ (O_RDWR &&& O_CREAT ≠ 0 ∧ O_RDWR &&& O_EXCL ≠ 0) := by decide
  have c : ¬ (O_RDWR &&& O_TRUNC ≠ 0) := by decide
  simp only [memfs_open, h, if_neg a, if_neg b, if_neg c]

theorem memfs_open_excl_new (fs : memfs) (path : String) (mode : Nat)
    (h : memfs_find fs path = none) :
    memfs_open fs path (O_WRONLY ||| O_CREAT ||| O_EXCL) mode =
      .ok (fs.length, fs ++ [(path, [])]) := by
  have a : ¬ ((O_WRONLY ||| O_CREAT ||| O_EXCL) &&& O_ACCMODE = O_ACCMODE) := by decide
  have b : (O_WRONLY ||| O_CREAT ||| O_EXCL) &&& O_CREAT ≠ 0 := by decide
  simp only [memfs_open, h, if_neg a, if_pos b]

theorem memfs_file_some (fs : memfs) (path : String) (c : List Byte)
    (h : memfs_file fs path = some c) :
    ∃ vn, memfs_find fs path = some vn ∧ memfs_data fs vn = c := by
  unfold memfs_file at h
  split at h
  · cases h
  · rename_i vn hvn
    exact ⟨vn, hvn, by simpa using h⟩

theorem memfs_file_none (fs : memfs) (path : String) (h : memfs_file fs path = none) :
    memfs_find fs path = none := by
  unfold memfs_file at h
  split at h
  · assumption
  · cases h

/-- The destination of `sys_meld` on the file store, for sources of the same
length `4 * m` whose combined length fits an `int`, and a table with three
free slots. -/
theorem sys_meld_on_memfs (fs : memfs) (objs : List openfile) (ft : List (Option Nat))
    (p1 p2 p3 : String) (c1 c2 b1 b2 : List Byte) (m : Nat)
    (h1 : memfs_file fs p1 = some c1) (h2 : memfs_file fs p2 = some c2)
    (h3 : memfs_file fs p3 = none) (hc1 : c1.length = 4 * m) (hc2 : c2.length = 4 * m)
    (hint : 8 * m < 2147483648) (hfree : 3 ≤ ft.count none) :
    ∃ r, sys_meld memvfs (.ok p1) (.ok p2) (.ok p3) b1 b2
        { fs := fs, openfiles := objs, ft_openfiles := ft } = .returns r ∧
      memfs_file r.k.fs p3 = some (interleave_upto c1 c2 m) := by
  obtain ⟨v1, hv1, hd1⟩ := memfs_file_some fs p1 c1 h1
  obtain ⟨v2, hv2, hd2⟩ := memfs_file_some fs p2 c2 h2
  have hv3 := memfs_file_none fs p3 h3
  have lt1 := memfs_find_lt fs p1 v1 hv1
  have lt2 := memfs_find_lt fs p2 v2 hv2
  obtain ⟨fd1, t1, e1, -, -, n1⟩ := place_scan_free objs.length ft (by omega)
  obtain ⟨fd2, t2, e2, -, -, n2⟩ := place_scan_free (objs.length + 1) t1 (by omega)
  obtain ⟨fd3, t3, e3, hfd3, -, -⟩ := place_scan_free (objs.length + 1 + 1) t2 (by omega)
  have g0 := deref_append (fs ++ [(p3, [])]) objs
    [⟨v1, O_RDWR &&& O_ACCMODE, false, 0, 1⟩, ⟨v2, O_RDWR &&& O_ACCMODE, false, 0, 1⟩,
     ⟨fs.length, (O_WRONLY ||| O_CREAT ||| O_EXCL) &&& O_ACCMODE, false, 0, 1⟩] t3 0
  have g1 := deref_append (fs ++ [(p3, [])]) objs
    [⟨v1, O_RDWR &&& O_ACCMODE, false, 0, 1⟩, ⟨v2, O_RDWR &&& O_ACCMODE, false, 0, 1⟩,
     ⟨fs.length, (O_WRONLY ||| O_CREAT ||| O_EXCL) &&& O_ACCMODE, false, 0, 1⟩] t3 1
  have g2 := deref_append (fs ++ [(p3, [])]) objs
    [⟨v1, O_RDWR &&& O_ACCMODE, false, 0, 1⟩, ⟨v2, O_RDWR &&& O_ACCMODE, false, 0, 1⟩,
     ⟨fs.length, (O_WRONLY ||| O_CREAT ||| O_EXCL) &&& O_ACCMODE, false, 0, 1⟩] t3 2
  simp only [Nat.add_zero, List.getD_cons_zero, List.getD_cons_succ] at g0 g1 g2
  have inv : MeldInv
      { fs := fs ++ [(p3, [])],
        openfiles := objs ++
          [⟨v1, O_RDWR &&& O_ACCMODE, false, 0, 1⟩, ⟨v2, O_RDWR &&& O_ACCMODE, false, 0, 1⟩,
           ⟨fs.length, (O_WRONLY ||| O_CREAT ||| O_EXCL) &&& O_ACCMODE, false, 0, 1⟩],
        ft_openfiles := t3 }
      objs.length (objs.length + 1) (objs.length + 2) v1 v2 fs.length c1 c2 t3 p3 0 := by
    constructor
    · simp
    · simp
    · simp
    · omega
    · omega
    · omega
    · rw [g0]
    · rw [g1]
    · rw [g2]
    · rw [g0]
    · rw [g1]
    · rw [g2]
    · rw [g0]
    · rw [g1]
    · rw [g2]
    · simp [memfs_data_append_lt _ _ _ lt1, hd1]
    · simp [memfs_data_append_lt _ _ _ lt2, hd2]
    · simp [memfs_data_append_length, interleave_upto]
    · simp
    · omega
    · omega
    · rfl
    · exact memfs_find_append_new fs p3 [] hv3
  have hs1 : to_int ((c1.length : Nat) : Int) = ((4 * m : Nat) : Int) := by
    rw [to_int_of_range _ (by omega) (by omega), hc1]
  have hs2 : to_int (((4 * m : Nat) : Int) + ((c2.length : Nat) : Int)) =
      ((8 * m : Nat) : Int) := by
    rw [to_int_of_range _ (by omega) (by omega), hc2]
    omega
  have hsz : int_div ((8 * m : Nat) : Int) 2 = ((4 * m : Nat) : Int) := by
    rw [int_div_two_nonneg _ (by omega)]
    omega
  have hfuel : (((4 * m : Nat) : Int)).toNat + 1 = 4 * m + 1 := by
    rw [Int.toNat_ofNat]
  obtain ⟨k1, hrun, inv1⟩ := meld_loop_run objs.length (objs.length + 1) (objs.length + 2)
    v1 v2 fs.length c1 c2 t3 p3 m ((8 * m : Nat) : Int) hc1 hc2 hsz (by omega) m 0
    (4 * m + 1) b1 b2 _ (by omega) (by omega) inv
  obtain ⟨r, hr, hfs⟩ := meld_cleanup_returns (objs.length + 2) fd3 k1
    (by rw [inv1.table]; exact hfd3)
  refine ⟨r, ?_, ?_⟩
  · have hd1a := memfs_data_append_lt fs [(p3, [])] v1 lt1
    have hd2a := memfs_data_append_lt fs [(p3, [])] v2 lt2
    simp only [Nat.mul_zero, Nat.cast_zero] at hrun
    simp only [sys_meld, copyinstr, openfile_open, memvfs_vfs_open, memvfs_VOP_STAT,
      memfs_open_rdwr fs p1 _ v1 hv1, memfs_open_rdwr fs p2 _ v2 hv2,
      memfs_open_excl_new fs p3 _ hv3, filetable_place, List.length_append,
      List.length_singleton, List.length_cons, List.length_nil, Nat.zero_add, e1, e2, e3,
      List.append_assoc, List.singleton_append, List.cons_append, List.nil_append, g0, g1,
      hd1a, hd2a, hd1, hd2, hs1, hs2, hsz, hfuel]
    change meld_finish memvfs (objs.length + 2) fd3
      (meld_loop memvfs objs.length (objs.length + 1) (objs.length + 2) _ _ _ _ _ _) = _
    rw [hrun]
    exact hr
  · rw [hfs]
    simp [memfs_file, inv1.find, inv1.d3]

/-- When the combined length of the sources, stored in the `int` `size`, gives
a `size / 2` that is not positive, the loop of `sys_meld` does not run and the
destination, created by `openfile_open`, stays empty. -/
theorem sys_meld_size_wraps (fs : memfs) (objs : List openfile) (ft : List (Option Nat))
    (p1 p2 p3 : String) (c1 c2 b1 b2 : List Byte)
    (h1 : memfs_file fs p1 = some c1) (h2 : memfs_file fs p2 = some c2)
    (h3 : memfs_file fs p3 = none)
    (hwrap : int_div (to_int (to_int ((c1.length : Nat) : Int) + ((c2.length : Nat) : Int))) 2
      ≤ 0)
    (hfree : 3 ≤ ft.count none) :
    ∃ r, sys_meld memvfs (.ok p1) (.ok p2) (.ok p3) b1 b2
        { fs := fs, openfiles := objs, ft_openfiles := ft } = .returns r ∧
      memfs_file r.k.fs p3 = some [] := by
  obtain ⟨v1, hv1, hd1⟩ := memfs_file_some fs p1 c1 h1
  obtain ⟨v2, hv2, hd2⟩ := memfs_file_some fs p2 c2 h2
  have hv3 := memfs_file_none fs p3 h3
  have lt1 := memfs_find_lt fs p1 v1 hv1
  have lt2 := memfs_find_lt fs p2 v2 hv2
  obtain ⟨fd1, t1, e1, -, -, n1⟩ := place_scan_free objs.length ft (by omega)
  obtain ⟨fd2, t2, e2, -, -, n2⟩ := place_scan_free (objs.length + 1) t1 (by omega)
  obtain ⟨fd3, t3, e3, hfd3, -, -⟩ := place_scan_free (objs.length + 1 + 1) t2 (by omega)
  have g0 := deref_append (fs ++ [(p3, [])]) objs
    [⟨v1, O_RDWR &&& O_ACCMODE, false, 0, 1⟩, ⟨v2, O_RDWR &&& O_ACCMODE, false, 0, 1⟩,
     ⟨fs.length, (O_WRONLY ||| O_CREAT ||| O_EXCL) &&& O_ACCMODE, false, 0, 1⟩] t3 0
  have g1 := deref_append (fs ++ [(p3, [])]) objs
    [⟨v1, O_RDWR &&& O_ACCMODE, false, 0, 1⟩, ⟨v2, O_RDWR &&& O_ACCMODE, false, 0, 1⟩,
     ⟨fs.length, (O_WRONLY ||| O_CREAT ||| O_EXCL) &&& O_ACCMODE, false, 0, 1⟩] t3 1
  simp only [Nat.add_zero, List.getD_cons_zero, List.getD_cons_succ] at g0 g1
  obtain ⟨r, hr, hfs⟩ := meld_cleanup_returns (objs.length + 2) fd3
    { fs := fs ++ [(p3, [])],
      openfiles := objs ++
        [⟨v1, O_RDWR &&& O_ACCMODE, false, 0, 1⟩, ⟨v2, O_RDWR &&& O_ACCMODE, false, 0, 1⟩,
         ⟨fs.length, (O_WRONLY ||| O_CREAT ||| O_EXCL) &&& O_ACCMODE, false, 0, 1⟩],
      ft_openfiles := t3 } hfd3
  refine ⟨r, ?_, ?_⟩
  · have hd1a := memfs_data_append_lt fs [(p3, [])] v1 lt1
    have hd2a := memfs_data_append_lt fs [(p3, [])] v2 lt2
    simp only [sys_meld, copyinstr, openfile_open, memvfs_vfs_open, memvfs_VOP_STAT,
      memfs_open_rdwr fs p1 _ v1 hv1, memfs_open_rdwr fs p2 _ v2 hv2,
      memfs_open_excl_new fs p3 _ hv3, filetable_place, List.length_append,
      List.length_singleton, List.length_cons, List.length_nil, Nat.zero_add, e1, e2, e3,
      List.append_assoc, List.singleton_append, List.cons_append, List.nil_append, g0, g1,
      hd1a, hd2a, hd1, hd2]
    rw [meld_loop, if_neg (by omega)]
    exact hr
  · rw [hfs]
    simp [memfs_file, memfs_find_append_new fs p3 [] hv3, memfs_data_append_length]

theorem big1_length : big1.length = 1073741824 := by
  simp only [big1, List.length_replicate]

theorem big2_length : big2.length = 1073741824 := by
  simp only [big2, List.length_replicate]

/-- C1 (amended). On the file store, for two source files of the same length
`n`, `n` a multiple of 4 with `2 * n` below 2^31 (so that the combined length
fits the `int` `size`), a destination path that does not exist yet and a
descriptor table with at least three free slots, whatever the two buffers hold
at entry, `sys_meld` returns and the destination then holds chunk 0 of file1,
chunk 0 of file2, chunk 1 of file1, chunk 1 of file2, and so on through chunk
`n / 4 - 1`, `2 * n` bytes in all; for file1 = "AAAABBBBCCCC" and
file2 = "ddddeeeeffff" the destination holds "AAAAddddBBBBeeeeCCCCffff". -/
theorem sys_meld_interleaves :
    (∀ (fs : memfs) (objs : List openfile) (ft : List (Option Nat)) (p1 p2 p3 : String)
        (c1 c2 b1 b2 : List Byte),
      memfs_file fs p1 = some c1 → memfs_file fs p2 = some c2 → memfs_file fs p3 = none →
      c1.length = c2.length → 4 ∣ c1.length → 2 * c1.length < 2147483648 →
      3 ≤ ft.count none →
      ∃ r, sys_meld memvfs (.ok p1) (.ok p2) (.ok p3) b1 b2
          { fs := fs, openfiles := objs, ft_openfiles := ft } = .returns r ∧
        memfs_file r.k.fs p3 = some (meld_spec c1 c2) ∧
        (meld_spec c1 c2).length = 2 * c1.length) ∧
    (∃ r, sys_meld memvfs (.ok "file1") (.ok "file2") (.ok "file3") stale stale
        (fresh meld_fs 8) = .returns r ∧
      memfs_file r.k.fs "file3" =
        some [65, 65, 65, 65, 100, 100, 100, 100, 66, 66, 66, 66, 101, 101, 101, 101,
              67, 67, 67, 67, 102, 102, 102, 102]) := by
  constructor
  · intro fs objs ft p1 p2 p3 c1 c2 b1 b2 h1 h2 h3 hlen hdvd hint hfree
    obtain ⟨m, hm⟩ := hdvd
    obtain ⟨r, hr, hdest⟩ := sys_meld_on_memfs fs objs ft p1 p2 p3 c1 c2 b1 b2 m h1 h2 h3 hm
      (by omega) (by omega) hfree
    have hdiv : c1.length / 4 = m := by omega
    refine ⟨r, hr, ?_, ?_⟩
    · rw [hdest, meld_spec, hdiv]
    · rw [meld_spec, hdiv, interleave_upto_length c1 c2 m (by omega) (by omega)]
      omega
  · exact ⟨_, rfl, by decide⟩

/-- The hypotheses of `sys_meld_interleaves` hold for the files of testbin/meld
and a table of eight free slots. -/
theorem sys_meld_interleaves_witness :
    ∃ r, sys_meld memvfs (.ok "file1") (.ok "file2") (.ok "file3") stale stale
        { fs := meld_fs, openfiles := [], ft_openfiles := List.replicate 8 none } = .returns r ∧
      memfs_file r.k.fs "file3" = some (meld_spec writebuf1 writebuf2) ∧
      (meld_spec writebuf1 writebuf2).length = 2 * writebuf1.length :=
  sys_meld_interleaves.1 meld_fs [] (List.replicate 8 none) "file1" "file2" "file3"
    writebuf1 writebuf2 stale stale (by decide) (by decide) (by decide) (by decide) (by decide)
    (by decide) (by decide)

/-- C1 as stated fails in two ways.  With the files of testbin/meld (equal
length 12, a multiple of 4, "file3" not there, the file store transfers in
full) and a table of two slots, the third `filetable_place` fails, `sys_meld`
returns EMFILE, and the destination, which `openfile_open` created, is empty.
With two files of 2^30 bytes each and eight free slots, the combined length
2^31 stored in the `int` `size` is negative, the loop does not run, and the
destination is empty instead of holding 2^31 bytes. -/
theorem sys_meld_writes_nothing :
    (memfs_file meld_fs "file1" = some writebuf1 ∧
     memfs_file meld_fs "file2" = some writebuf2 ∧
     memfs_file meld_fs "file3" = none ∧
     writebuf1.length = writebuf2.length ∧ 4 ∣ writebuf1.length ∧
     ∃ r, sys_meld memvfs (.ok "file1") (.ok "file2") (.ok "file3") stale stale
         (fresh meld_fs 2) = .returns r ∧
       r.result = some EMFILE ∧
       memfs_file r.k.fs "file3" = some [] ∧
       memfs_file r.k.fs "file3" ≠ some (meld_spec writebuf1 writebuf2)) ∧
    (memfs_file big_fs "file1" = some big1 ∧
     memfs_file big_fs "file2" = some big2 ∧
     memfs_file big_fs "file3" = none ∧
     big1.length = big2.length ∧ 4 ∣ big1.length ∧
     (meld_spec big1 big2).length = 2147483648 ∧
     ∃ r, sys_meld memvfs (.ok "file1") (.ok "file2") (.ok "file3") stale stale
         (fresh big_fs 8) = .returns r ∧
       memfs_file r.k.fs "file3" = some [] ∧
       memfs_file r.k.fs "file3" ≠ some (meld_spec big1 big2)) := by
  have hwrap : int_div (to_int (to_int ((big1.length : Nat) : Int) +
      ((big2.length : Nat) : Int))) 2 ≤ 0 := by
    rw [big1_length, big2_length]
    decide
  have hspec : (meld_spec big1 big2).length = 2147483648 := by
    rw [meld_spec, interleave_upto_length big1 big2 _ (by rw [big1_length])
      (by rw [big1_length, big2_length]), big1_length]
  obtain ⟨r, hr, hdest⟩ := sys_meld_size_wraps big_fs [] (List.replicate 8 none)
    "file1" "file2" "file3" big1 big2 stale stale rfl rfl rfl hwrap (by decide)
  have hne : memfs_file r.k.fs "file3" ≠ some (meld_spec big1 big2) := by
    rw [hdest]
    intro h
    injection h with h
    rw [← h] at hspec
    simp at hspec
  refine ⟨⟨by decide, by decide, by decide, by decide, by decide, _, rfl, ?_, ?_, ?_⟩,
    ⟨rfl, rfl, rfl, by rw [big1_length, big2_length], by rw [big1_length]; decide, hspec,
      r, hr, hdest, hne⟩⟩ <;> decide

/-- C8 (amended). For an open handle whose object's offset lock is free and
whose access mode permits the operation, and any requested length `size`: when
the VFS transfer, started at the current offset of the object, succeeds having
moved `n` bytes (`n ≤ size`, `n` below 2^31; the uio comes back with its offset
advanced by `n` and `size - n` bytes left), `sys_read` returns 0, stores `n`
through `retval`, leaves the offset advanced by exactly `n` and the VFS in the
state that transfer produced; and likewise `sys_write`. -/
theorem sys_read_write_transfer {σ : Type} (V : Vfs σ) (k : kernel σ) (fd : Int) (file : Nat)
    (buf : List Byte) (size n : Nat) (u : uio) (fs1 : σ)
    (hget : filetable_get k fd = .ok file) (hfile : file < k.openfiles.length)
    (hlock : (deref k file).of_offsetlock = false)
    (hn : n ≤ size) (hint : n < 2147483648)
    (hoff : u.uio_offset = (deref k file).of_offset + n)
    (hres : u.uio_resid = size - n) :
    ((deref k file).of_accmode ≠ O_WRONLY →
      V.VOP_READ k.fs (deref k file).of_vnode
        (uio_kinit buf size (deref k file).of_offset .UIO_READ) = (none, u, fs1) →
      ∃ r, sys_read V fd buf size k = .returns r ∧
        r.result = none ∧ r.retval = some (n : Int) ∧
        (deref r.k file).of_offset = (deref k file).of_offset + n ∧
        r.k.fs = fs1) ∧
    ((deref k file).of_accmode ≠ O_RDONLY →
      V.VOP_WRITE k.fs (deref k file).of_vnode
        (uio_kinit buf size (deref k file).of_offset .UIO_WRITE) = (none, u, fs1) →
      ∃ r, sys_write V fd buf size k = .returns r ∧
        r.result = none ∧ r.retval = some (n : Int) ∧
        (deref r.k file).of_offset = (deref k file).of_offset + n ∧
        r.k.fs = fs1) := by
  have hret : to_int ((size : Int) - ((size - n : Nat) : Int)) = (n : Int) := by
    rw [to_int_of_range _ (by omega) (by omega)]
    omega
  constructor
  · intro hmode hvop
    simp only [sys_read, hget, lock_acquire_free k file hlock, lock_release, filetable_put,
      assign_fs, deref_assign_self _ _ _ hfile, deref_fs, if_neg hmode, hvop,
      Option.isSome_none, Bool.false_eq_true, if_false]
    refine ⟨_, rfl, rfl, ?_, ?_, rfl⟩
    · simp only [hres, hret]
    · simp [deref_assign, hfile, hoff]
  · intro hmode hvop
    simp only [sys_write, hget, lock_acquire_free k file hlock, lock_release, filetable_put,
      assign_fs, deref_assign_self _ _ _ hfile, deref_fs, if_neg hmode, hvop,
      Option.isSome_none, Bool.false_eq_true, if_false]
    refine ⟨_, rfl, rfl, ?_, ?_, rfl⟩
    · simp only [hres, hret]
    · simp [deref_assign, hfile, hoff]

/-- C6 (amended). For an open handle whose object's offset lock is free: if the
access mode of the object is write-only, `sys_read` fails with EACCES
(AccessDenied) and leaves the offset unchanged; if it is read-only, `sys_write`
fails with EACCES and leaves the offset unchanged; if it is read-write, the
access-mode check rejects neither call: `sys_read` and `sys_write` return the
result code of the VFS operation (EACCES only when the VFS operation itself
ends with it), so each call succeeds whenever the VFS operation succeeds. -/
theorem access_mode_check {σ : Type} (V : Vfs σ) (k : kernel σ) (fd : Int) (file : Nat)
    (buf : List Byte) (size : Nat)
    (hget : filetable_get k fd = .ok file) (hfile : file < k.openfiles.length)
    (hlock : (deref k file).of_offsetlock = false) :
    ((deref k file).of_accmode = O_WRONLY →
      ∃ r, sys_read V fd buf size k = .returns r ∧ r.result = some EACCES ∧
        (deref r.k file).of_offset = (deref k file).of_offset) ∧
    ((deref k file).of_accmode = O_RDONLY →
      ∃ r, sys_write V fd buf size k = .returns r ∧ r.result = some EACCES ∧
        (deref r.k file).of_offset = (deref k file).of_offset) ∧
    ((deref k file).of_accmode = O_RDWR →
      (∃ r, sys_read V fd buf size k = .returns r ∧
        r.result = (V.VOP_READ k.fs (deref k file).of_vnode
          (uio_kinit buf size (deref k file).of_offset .UIO_READ)).1) ∧
      (∃ r, sys_write V fd buf size k = .returns r ∧
        r.result = (V.VOP_WRITE k.fs (deref k file).of_vnode
          (uio_kinit buf size (deref k file).of_offset .UIO_WRITE)).1)) := by
  refine ⟨?_, ?_, ?_⟩
  · intro hmode
    simp only [sys_read, hget, lock_acquire_free k file hlock,
      deref_assign_self _ _ _ hfile, hmode, if_true]
    refine ⟨_, rfl, rfl, ?_⟩
    simp [lock_release, deref_assign, hfile]
  · intro hmode
    simp only [sys_write, hget, lock_acquire_free k file hlock,
      deref_assign_self _ _ _ hfile, hmode, if_true]
    refine ⟨_, rfl, rfl, ?_⟩
    simp [lock_release, deref_assign, hfile]
  · intro hmode
    have hw : ¬ (O_RDWR = O_WRONLY) := by decide
    have hr : ¬ (O_RDWR = O_RDONLY) := by decide
    constructor
    · simp only [sys_read, hget, lock_acquire_free k file hlock, lock_release, filetable_put,
        assign_fs, deref_assign_self _ _ _ hfile, deref_fs, hmode, if_neg hw]
      split
      · exact ⟨_, rfl, rfl⟩
      · exact ⟨_, rfl, rfl⟩
    · simp only [sys_write, hget, lock_acquire_free k file hlock, lock_release, filetable_put,
        assign_fs, deref_assign_self _ _ _ hfile, deref_fs, hmode, if_neg hr]
      split
      · exact ⟨_, rfl, rfl⟩
      · exact ⟨_, rfl, rfl⟩

/-- The hypotheses of `sys_read_write_transfer` hold on the file store: a read
of 20 bytes on a read-write handle of the 12-byte file1 moves 12 bytes, and a
write of 4 bytes moves 4. -/
theorem sys_read_write_transfer_witness :
    (∃ r, sys_read memvfs 0 (List.replicate 20 0) 20 (opened O_RDWR 4) = .returns r ∧
      r.result = none ∧ r.retval = some ((12 : Nat) : Int) ∧
      (deref r.k 0).of_offset = (deref (opened O_RDWR 4) 0).of_offset + 12 ∧
      r.k.fs = meld_fs) ∧
    (∃ r, sys_write memvfs 0 [1, 2, 3, 4] 4 (opened O_RDWR 4) = .returns r ∧
      r.result = none ∧ r.retval = some ((4 : Nat) : Int) ∧
      (deref r.k 0).of_offset = (deref (opened O_RDWR 4) 0).of_offset + 4 ∧
      r.k.fs = [("file1", [1, 2, 3, 4, 66, 66, 66, 66, 67, 67, 67, 67]), ("file2", writebuf2)]) :=
  ⟨(sys_read_write_transfer memvfs (opened O_RDWR 4) 0 0 (List.replicate 20 0) 20 12
      (memfs_read meld_fs 0 (uio_kinit (List.replicate 20 0) 20 0 .UIO_READ)).2.1 meld_fs
      rfl (by decide) (by decide) (by decide) (by decide) (by decide) (by decide)).1
      (by decide) rfl,
   (sys_read_write_transfer memvfs (opened O_RDWR 4) 0 0 [1, 2, 3, 4] 4 4
      (memfs_write meld_fs 0 (uio_kinit [1, 2, 3, 4] 4 0 .UIO_WRITE)).2.1
      [("file1", [1, 2, 3, 4, 66, 66, 66, 66, 67, 67, 67, 67]), ("file2", writebuf2)]
      rfl (by decide) (by decide) (by decide) (by decide) (by decide) (by decide)).2
      (by decide) rfl⟩

/-- C8 as stated fails in two ways.  On a read-write handle of file1 whose
offset lock an earlier `sys_read` left held (its VFS read failed with ENODEV),
the VFS read at the current offset would succeed with 4 bytes, and `sys_read`
does not return: it waits in `lock_acquire`.  On a read-write handle with the
lock free, a write of 2^31 bytes that the VFS consumes in full returns 0 and
stores -2^31 through the `int` `retval`, not 2^31. -/
theorem transfer_blocks_or_retval_wraps :
    (∃ w, sys_read (failing_vfs ENODEV) 0 [0, 0, 0, 0] 4 (opened O_RDWR 4) = .returns w ∧
      w.result = some ENODEV ∧
      filetable_get w.k 0 = .ok 0 ∧ (deref w.k 0).of_accmode = O_RDWR ∧
      memvfs.VOP_READ w.k.fs (deref w.k 0).of_vnode
          (uio_kinit [0, 0, 0, 0] 4 (deref w.k 0).of_offset .UIO_READ) =
        (none, { uio_iov := [65, 65, 65, 65], uio_offset := (deref w.k 0).of_offset + 4,
                 uio_resid := 4 - 4, uio_rw := .UIO_READ }, meld_fs) ∧
      sys_read memvfs 0 [0, 0, 0, 0] 4 w.k = .blocks) ∧
    (filetable_get (opened O_RDWR 4) 0 = .ok 0 ∧
      (deref (opened O_RDWR 4) 0).of_accmode = O_RDWR ∧
      (deref (opened O_RDWR 4) 0).of_offsetlock = false ∧
      sink_vfs.VOP_WRITE (opened O_RDWR 4).fs (deref (opened O_RDWR 4) 0).of_vnode
          (uio_kinit [] 2147483648 (deref (opened O_RDWR 4) 0).of_offset .UIO_WRITE) =
        (none, { uio_iov := [], uio_offset := (deref (opened O_RDWR 4) 0).of_offset + 2147483648,
                 uio_resid := 2147483648 - 2147483648, uio_rw := .UIO_WRITE }, meld_fs) ∧
      ∃ r, sys_write sink_vfs 0 [] 2147483648 (opened O_RDWR 4) = .returns r ∧
        r.result = none ∧ r.retval = some (-2147483648) ∧ r.retval ≠ some 2147483648) := by
  refine ⟨⟨_, rfl, by decide, rfl, by decide, rfl, rfl⟩,
    ⟨rfl, by decide, by decide, rfl, _, rfl, by decide, by decide, by decide⟩⟩

/-- The hypotheses of `access_mode_check` hold for file1 opened write-only,
read-only and read-write. -/
theorem access_mode_check_witness :
    (∃ r, sys_read memvfs 0 [0, 0, 0, 0] 4 (opened O_WRONLY 4) = .returns r ∧
      r.result = some EACCES ∧
      (deref r.k 0).of_offset = (deref (opened O_WRONLY 4) 0).of_offset) ∧
    (∃ r, sys_write memvfs 0 [1, 2, 3, 4] 4 (opened O_RDONLY 4) = .returns r ∧
      r.result = some EACCES ∧
      (deref r.k 0).of_offset = (deref (opened O_RDONLY 4) 0).of_offset) ∧
    ((∃ r, sys_read memvfs 0 [0, 0, 0, 0] 4 (opened O_RDWR 4) = .returns r ∧
        r.result = (memvfs.VOP_READ (opened O_RDWR 4).fs (deref (opened O_RDWR 4) 0).of_vnode
          (uio_kinit [0, 0, 0, 0] 4 (deref (opened O_RDWR 4) 0).of_offset .UIO_READ)).1) ∧
      (∃ r, sys_write memvfs 0 [0, 0, 0, 0] 4 (opened O_RDWR 4) = .returns r ∧
        r.result = (memvfs.VOP_WRITE (opened O_RDWR 4).fs (deref (opened O_RDWR 4) 0).of_vnode
          (uio_kinit [0, 0, 0, 0] 4 (deref (opened O_RDWR 4) 0).of_offset .UIO_WRITE)).1)) :=
  ⟨(access_mode_check memvfs (opened O_WRONLY 4) 0 0 [0, 0, 0, 0] 4 rfl (by decide)
      (by decide)).1 (by decide),
   (access_mode_check memvfs (opened O_RDONLY 4) 0 0 [1, 2, 3, 4] 4 rfl (by decide)
      (by decide)).2.1 (by decide),
   (access_mode_check memvfs (opened O_RDWR 4) 0 0 [0, 0, 0, 0] 4 rfl (by decide)
      (by decide)).2.2 (by decide)⟩

/-- C6 as stated fails in two ways.  On a write-only handle of file1 whose
offset lock an earlier `sys_write` left held (its VFS write failed with
ENODEV), `sys_read` does not fail with EACCES: it waits in `lock_acquire` and
does not return.  On a read-write handle with the lock free, over a VFS whose
read ends with EACCES, `sys_read` returns EACCES. -/
theorem read_blocks_or_passes_EACCES :
    (∃ w, sys_write (failing_vfs ENODEV) 0 [1, 2, 3, 4] 4 (opened O_WRONLY 4) = .returns w ∧
      w.result = some ENODEV ∧
      filetable_get w.k 0 = .ok 0 ∧ (deref w.k 0).of_accmode = O_WRONLY ∧
      sys_read memvfs 0 [0, 0, 0, 0] 4 w.k = .blocks) ∧
    (filetable_get (opened O_RDWR 4) 0 = .ok 0 ∧
      (deref (opened O_RDWR 4) 0).of_accmode = O_RDWR ∧
      (deref (opened O_RDWR 4) 0).of_offsetlock = false ∧
      ∃ r, sys_read (failing_vfs EACCES) 0 [0, 0, 0, 0] 4 (opened O_RDWR 4) = .returns r ∧
        r.result = some EACCES) := by
  refine ⟨⟨_, rfl, by decide, rfl, by decide, rfl⟩, ⟨rfl, by decide, by decide, _, rfl, by decide⟩⟩

/-! ## Writing and reading back on the file store -/

theorem written_length_before (old : List Byte) (off : Nat) :
    (old.take off ++ List.replicate (off - old.length) 0).length = off := by
  simp; omega

theorem written_read_back (old b : List Byte) (off : Nat) :
    ((old.take off ++ List.replicate (off - old.length) 0 ++ b ++
      old.drop (off + b.length)).drop off).take b.length = b := by
  rw [List.append_assoc, List.drop_left' (written_length_before old off),
    List.take_left' rfl]

theorem written_read_after (old b : List Byte) (off : Nat) :
    (old.take off ++ List.replicate (off - old.length) 0 ++ b ++
      old.drop (off + b.length)).drop (off + b.length) = old.drop (off + b.length) := by
  apply List.drop_left'
  simp; omega

theorem filetable_get_congr {σ : Type} (k k1 : kernel σ) (fd : Int)
    (h : k1.ft_openfiles = k.ft_openfiles) : filetable_get k1 fd = filetable_get k fd := by
  simp [filetable_get, filetable_okfd, h]

theorem sys_read_memvfs (k : kernel memfs) (fd : Int) (file : Nat) (rbuf : List Byte)
    (size : Nat) (hget : filetable_get k fd = .ok file) (hfile : file < k.openfiles.length)
    (hlock : (deref k file).of_offsetlock = false)
    (hmode : (deref k file).of_accmode ≠ O_WRONLY) :
    ∃ r, sys_read memvfs fd rbuf size k = .returns r ∧
      r.result = none ∧
      r.retval = some (to_int ((size : Int) - ((size -
        (((memfs_data k.fs (deref k file).of_vnode).drop (deref k file).of_offset).take
          size).length : Nat) : Int))) ∧
      r.buf =
        ((memfs_data k.fs (deref k file).of_vnode).drop (deref k file).of_offset).take size ++
          rbuf.drop (((memfs_data k.fs (deref k file).of_vnode).drop
            (deref k file).of_offset).take size).length := by
  simp only [sys_read, hget, lock_acquire_free k file hlock, lock_release, filetable_put,
    assign_fs, deref_assign_self _ _ _ hfile, deref_fs, if_neg hmode, memvfs, memfs_read,
    uio_kinit, Option.isSome_none, Bool.false_eq_true, if_false]
  exact ⟨_, rfl, rfl, rfl, rfl⟩

/-- C10 (amended). On the file store, for a read-write handle at offset `o` on
a file, with its offset lock free, and a byte sequence `B`: `sys_write` of `B`
transfers all of `B` and leaves the offset of the handle at `o + len(B)`.  A
`sys_read` of `len(B)` bytes that follows on the same handle, with no seek
between, starts there: it delivers the bytes the file had from `o + len(B)` on
(at most `len(B)` of them, none at the end of the file).  A `sys_read` of
`len(B)` bytes through another readable handle on the same file whose offset
is `o` and whose offset lock is free returns exactly the bytes `B`, in
order. -/
theorem write_then_read (k : kernel memfs) (fd1 fd2 : Int) (f1 f2 : Nat) (B rbuf : List Byte)
    (hget1 : filetable_get k fd1 = .ok f1) (hlen1 : f1 < k.openfiles.length)
    (hlock1 : (deref k f1).of_offsetlock = false)
    (hmode1 : (deref k f1).of_accmode = O_RDWR)
    (hvn : (deref k f1).of_vnode < k.fs.length) :
    ∃ w, sys_write memvfs fd1 B B.length k = .returns w ∧
      w.result = none ∧
      (deref w.k f1).of_offset = (deref k f1).of_offset + B.length ∧
      (∃ r, sys_read memvfs fd1 rbuf B.length w.k = .returns r ∧
        r.result = none ∧
        r.buf =
          ((memfs_data k.fs (deref k f1).of_vnode).drop
              ((deref k f1).of_offset + B.length)).take B.length ++
            rbuf.drop (((memfs_data k.fs (deref k f1).of_vnode).drop
              ((deref k f1).of_offset + B.length)).take B.length).length) ∧
      (filetable_get k fd2 = .ok f2 → f2 < k.openfiles.length → f2 ≠ f1 →
        (deref k f2).of_offsetlock = false →
        (deref k f2).of_accmode ≠ O_WRONLY →
        (deref k f2).of_vnode = (deref k f1).of_vnode →
        (deref k f2).of_offset = (deref k f1).of_offset →
        ∃ r, sys_read memvfs fd2 rbuf B.length w.k = .returns r ∧
          r.result = none ∧ r.retval = some (to_int (B.length : Int)) ∧
          r.buf.take B.length = B) := by
  have hro : ¬ (O_RDWR = O_RDONLY) := by decide
  have hwo : ¬ (O_RDWR = O_WRONLY) := by decide
  have hw : sys_write memvfs fd1 B B.length k =
      .returns { result := none
                 retval := some (to_int (↑B.length - ↑(B.length - (B.take B.length).length)))
                 buf := B
                 k := lock_release (assign
          { fs := k.fs.set (deref k f1).of_vnode ((k.fs.getD (deref k f1).of_vnode ("", [])).1,
              (memfs_data k.fs (deref k f1).of_vnode).take (deref k f1).of_offset ++
                List.replicate ((deref k f1).of_offset -
                  (memfs_data k.fs (deref k f1).of_vnode).length) 0 ++ B.take B.length ++
                (memfs_data k.fs (deref k f1).of_vnode).drop
                  ((deref k f1).of_offset + (B.take B.length).length)),
            openfiles := (assign k f1 (fun f => { f with of_offsetlock := true })).openfiles,
            ft_openfiles := k.ft_openfiles }
          f1 (fun f => { f with of_offset :=
            (deref k f1).of_offset + (B.take B.length).length })) f1 } := by
    simp only [sys_write, hget1, lock_acquire_free k f1 hlock1, lock_release, filetable_put,
      assign_fs, assign_ft, deref_assign_self _ _ _ hlen1, deref_fs, hmode1, if_neg hro,
      memvfs, memfs_write, uio_kinit, Option.isSome_none, Bool.false_eq_true, if_false]
  rw [List.take_length] at hw
  have key : ∃ w, sys_write memvfs fd1 B B.length k = .returns w ∧ w.result = none ∧
      w.k.ft_openfiles = k.ft_openfiles ∧ w.k.openfiles.length = k.openfiles.length ∧
      deref w.k f1 = { deref k f1 with of_offset := (deref k f1).of_offset + B.length,
                                        of_offsetlock := false } ∧
      (∀ f, f ≠ f1 → deref w.k f = deref k f) ∧
      memfs_data w.k.fs (deref k f1).of_vnode =
        (memfs_data k.fs (deref k f1).of_vnode).take (deref k f1).of_offset ++
          List.replicate ((deref k f1).of_offset -
            (memfs_data k.fs (deref k f1).of_vnode).length) 0 ++ B ++
          (memfs_data k.fs (deref k f1).of_vnode).drop ((deref k f1).of_offset + B.length) := by
    refine ⟨_, hw, rfl, rfl, ?_, ?_, ?_, ?_⟩
    · simp [lock_release]
    · simp [lock_release, deref_assign, hlen1]
    · intro f hf
      simp [lock_release, deref_assign, hf]
    · simp [lock_release, memfs_data_set_self _ _ _ hvn]
  obtain ⟨w, hw1, hres, hft, hlen, hf1, hother, hfs⟩ := key
  refine ⟨w, hw1, hres, by rw [hf1], ?_, ?_⟩
  · obtain ⟨r, hr1, hr2, -, hr4⟩ := sys_read_memvfs w.k fd1 f1 rbuf B.length
      (by rw [filetable_get_congr k w.k fd1 hft, hget1]) (by omega) (by rw [hf1])
      (by rw [hf1]; simpa [hmode1] using hwo)
    refine ⟨r, hr1, hr2, ?_⟩
    rw [hr4, hf1]
    simp only [hfs, written_read_after]
  · intro hget2 hlen2 hne hlock2 hmode2 hvn2 hoff2
    have hf2 := hother f2 hne
    obtain ⟨r, hr1, hr2, hr3, hr4⟩ := sys_read_memvfs w.k fd2 f2 rbuf B.length
      (by rw [filetable_get_congr k w.k fd2 hft, hget2]) (by omega) (by rw [hf2]; exact hlock2)
      (by rw [hf2]; exact hmode2)
    rw [hf2, hvn2, hoff2, hfs, written_read_back] at hr3 hr4
    refine ⟨r, hr1, hr2, ?_, ?_⟩
    · rw [hr3]; simp
    · rw [hr4, List.take_left' rfl]

/-- The hypotheses of `write_then_read` hold for the two handles of
`opened_twice`: four bytes written through handle 0 are read back through
handle 1. -/
theorem write_then_read_witness :
    ∃ w, sys_write memvfs 0 [1, 2, 3, 4] [1, 2, 3, 4].length opened_twice = .returns w ∧
      ∃ r, sys_read memvfs 1 [0, 0, 0, 0] [1, 2, 3, 4].length w.k = .returns r ∧
        r.result = none ∧ r.retval = some (to_int ([1, 2, 3, 4].length : Int)) ∧
        r.buf.take [1, 2, 3, 4].length = [1, 2, 3, 4] :=
  match write_then_read opened_twice 0 1 0 1 [1, 2, 3, 4] [0, 0, 0, 0] rfl (by decide)
      (by decide) (by decide) (by decide) with
  | ⟨w, hw, _, _, _, h⟩ =>
    ⟨w, hw, h rfl (by decide) (by decide) (by decide) (by decide) (by decide) (by decide)⟩

/-- C10 as stated fails: on a read-write handle of file1 at offset 0, with its
lock free, `sys_write` of the four bytes 1, 2, 3, 4 transfers all four, and the
`sys_read` of four bytes that follows on the same handle succeeds with four
bytes, which are bytes 4 to 7 of the file ("BBBB"), not the bytes written. -/
theorem same_handle_read_after_write_differs :
    (deref (opened O_RDWR 4) 0).of_accmode = O_RDWR ∧
    (deref (opened O_RDWR 4) 0).of_offsetlock = false ∧
    ∃ w, sys_write memvfs 0 [1, 2, 3, 4] 4 (opened O_RDWR 4) = .returns w ∧
      w.result = none ∧ w.retval = some 4 ∧
      ∃ r, sys_read memvfs 0 [0, 0, 0, 0] 4 w.k = .returns r ∧
        r.result = none ∧ r.retval = some 4 ∧
        r.buf = [66, 66, 66, 66] ∧ r.buf ≠ [1, 2, 3, 4] := by
  refine ⟨by decide, by decide, _, rfl, by decide, by decide, _, rfl, by decide, by decide,
    by decide, by decide⟩

/-! ## Where the code leaves the specification -/

/-- Whatever the VFS: on a handle whose offset lock is held, `sys_read` waits
in `lock_acquire` and does not return. -/
theorem sys_read_blocks {σ : Type} (V : Vfs σ) (k : kernel σ) (fd : Int) (file : Nat)
    (buf : List Byte) (size : Nat) (hget : filetable_get k fd = .ok file)
    (hheld : (deref k file).of_offsetlock = true) : sys_read V fd buf size k = .blocks := by
  simp only [sys_read, hget, lock_acquire_held k file hheld]

/-- Whatever the VFS: on a handle whose offset lock is held, `sys_write` waits
in `lock_acquire` and does not return. -/
theorem sys_write_blocks {σ : Type} (V : Vfs σ) (k : kernel σ) (fd : Int) (file : Nat)
    (buf : List Byte) (size : Nat) (hget : filetable_get k fd = .ok file)
    (hheld : (deref k file).of_offsetlock = true) : sys_write V fd buf size k = .blocks := by
  simp only [sys_write, hget, lock_acquire_held k file hheld]

/-- Whatever the VFS and the state: when the VFS read fails, `sys_read` returns
the error of the VFS with the offset lock of the object held, and the next
`sys_read` or `sys_write` on the handle does not return. -/
theorem sys_read_error_path {σ : Type} (V : Vfs σ) (k : kernel σ) (fd : Int) (file : Nat)
    (buf : List Byte) (size : Nat) (e : Errno)
    (hget : filetable_get k fd = .ok file) (hfile : file < k.openfiles.length)
    (hlock : (deref k file).of_offsetlock = false)
    (hmode : (deref k file).of_accmode ≠ O_WRONLY)
    (hvop : (V.VOP_READ k.fs (deref k file).of_vnode
      (uio_kinit buf size (deref k file).of_offset .UIO_READ)).1 = some e) :
    ∃ r, sys_read V fd buf size k = .returns r ∧ r.result = some e ∧
      (deref r.k file).of_offsetlock = true ∧
      sys_read V fd buf size r.k = .blocks ∧ sys_write V fd buf size r.k = .blocks := by
  simp only [sys_read, hget, lock_acquire_free k file hlock, lock_release, filetable_put,
    assign_fs, deref_assign_self _ _ _ hfile, deref_fs, if_neg hmode, hvop,
    Option.isSome_some, if_true]
  refine ⟨_, rfl, rfl, ?_, ?_, ?_⟩
  · simp [deref_assign, hfile]
  · exact sys_read_blocks V _ fd file buf size ((filetable_get_congr k _ fd rfl).trans hget)
      (by simp [deref_assign, hfile])
  · exact sys_write_blocks V _ fd file buf size ((filetable_get_congr k _ fd rfl).trans hget)
      (by simp [deref_assign, hfile])

/-- Whatever the VFS and the state: when the VFS write fails, `sys_write`
returns the error of the VFS with the offset lock of the object held, and the
next `sys_read` or `sys_write` on the handle does not return. -/
theorem sys_write_error_path {σ : Type} (V : Vfs σ) (k : kernel σ) (fd : Int) (file : Nat)
    (buf : List Byte) (size : Nat) (e : Errno)
    (hget : filetable_get k fd = .ok file) (hfile : file < k.openfiles.length)
    (hlock : (deref k file).of_offsetlock = false)
    (hmode : (deref k file).of_accmode ≠ O_RDONLY)
    (hvop : (V.VOP_WRITE k.fs (deref k file).of_vnode
      (uio_kinit buf size (deref k file).of_offset .UIO_WRITE)).1 = some e) :
    ∃ r, sys_write V fd buf size k = .returns r ∧ r.result = some e ∧
      (deref r.k file).of_offsetlock = true ∧
      sys_read V fd buf size r.k = .blocks ∧ sys_write V fd buf size r.k = .blocks := by
  simp only [sys_write, hget, lock_acquire_free k file hlock, lock_release, filetable_put,
    assign_fs, deref_assign_self _ _ _ hfile, deref_fs, if_neg hmode, hvop,
    Option.isSome_some, if_true]
  refine ⟨_, rfl, rfl, ?_, ?_, ?_⟩
  · simp [deref_assign, hfile]
  · exact sys_read_blocks V _ fd file buf size ((filetable_get_congr k _ fd rfl).trans hget)
      (by simp [deref_assign, hfile])
  · exact sys_write_blocks V _ fd file buf size ((filetable_get_congr k _ fd rfl).trans hget)
      (by simp [deref_assign, hfile])

/-- Whatever the VFS and the state: when the VFS fails to resolve the path
with error `e`, `sys_open` returns EFAULT, not `e`. -/
theorem sys_open_vfs_error {σ : Type} (V : Vfs σ) (k : kernel σ) (path : String)
    (flags mode : Nat) (e : Errno) (hflags : flags ≠ allflags)
    (hvfs : V.vfs_open k.fs path flags mode = .error e) :
    (sys_open V (.ok path) flags mode k).result = some EFAULT := by
  simp [sys_open, hflags, copyinstr, openfile_open, hvfs]

/-- Whatever the VFS and the state: `sys_open` returns EINVAL for no flags
other than `allflags`, the value with every recognised bit set. -/
theorem sys_open_EINVAL_only_allflags {σ : Type} (V : Vfs σ) (k : kernel σ)
    (upath : const_userptr_t) (flags mode : Nat) (hflags : flags ≠ allflags) :
    (sys_open V upath flags mode k).result ≠ some EINVAL := by
  simp only [sys_open, if_neg hflags]
  split
  · simp
  · split
    · simp
    · split <;> simp

/-- Whatever the VFS and the state: when the open succeeds and the table has no
free slot, `sys_open` returns EMFILE and the object it created is still in
the state with reference count 1. -/
theorem sys_open_full_table {σ : Type} (V : Vfs σ) (k : kernel σ) (path : String)
    (flags mode vn : Nat) (fs1 : σ) (hflags : flags ≠ allflags)
    (hvfs : V.vfs_open k.fs path flags mode = .ok (vn, fs1))
    (hfull : place_scan k.openfiles.length k.ft_openfiles = none) :
    (sys_open V (.ok path) flags mode k).result = some EMFILE ∧
    (deref (sys_open V (.ok path) flags mode k).k k.openfiles.length).of_refcount = 1 ∧
    (sys_open V (.ok path) flags mode k).k.ft_openfiles = k.ft_openfiles := by
  simp [sys_open, hflags, copyinstr, openfile_open, hvfs, filetable_place, hfull, deref,
    List.getD_eq_getElem?_getD]

/-- Whatever the VFS and the state: on an empty slot in range, `sys_close`
returns ENOENT and leaves the state as it was. -/
theorem sys_close_empty_slot {σ : Type} (V : Vfs σ) (k : kernel σ) (fd : Nat)
    (hfd : fd < k.ft_openfiles.length) (hslot : k.ft_openfiles.getD fd none = none) :
    sys_close V (fd : Int) k =
      .returns { result := some ENOENT, retval := none, buf := [], k := k } := by
  have hok : filetable_okfd k (fd : Int) = true := by simp [filetable_okfd, hfd]
  have hget : k.ft_openfiles[fd] = none := by
    simpa [List.getD_eq_getElem?_getD, List.getElem?_eq_getElem hfd] using hslot
  have hset : k.ft_openfiles.set fd none = k.ft_openfiles := by
    apply List.ext_getElem?
    intro j
    by_cases hj : fd = j
    · subst hj
      simp [List.getElem?_set, hfd, hget, List.getElem?_eq_getElem hfd]
    · simp [List.getElem?_set, hj]
  simp only [sys_close, hok, if_true, filetable_placeat, Int.toNat_ofNat, hslot, hset]

theorem getD_set_none (t : List (Option Nat)) (j : Nat) :
    (t.set j none).getD j none = none := by
  by_cases h : j < t.length
  · simp [List.getD_eq_getElem?_getD, List.getElem?_set, h]
  · have : t[j]? = none := List.getElem?_eq_none (by omega)
    simp [List.getD_eq_getElem?_getD, List.getElem?_set, h, this]

/-- Whatever the VFS and the state: the end of `sys_meld` returns ENOENT
whenever it returns, because the second `filetable_placeat` on the same slot
finds it empty. -/
theorem meld_cleanup_result {σ : Type} (V : Vfs σ) (file3 fd : Nat) (k : kernel σ)
    (r : sysret σ) (h : meld_cleanup V file3 fd k = .returns r) : r.result = some ENOENT := by
  by_cases hfd : fd < k.ft_openfiles.length
  · simp only [meld_cleanup, filetable_placeat, filetable_okfd, List.length_set,
      Int.toNat_ofNat, Nat.cast_nonneg, decide_True, Bool.true_and, Nat.cast_lt, hfd,
      if_true, getD_set_none] at h
    split at h
    · cases h; rfl
    · cases h; rfl
  · simp [meld_cleanup, filetable_okfd, hfd] at h

/-- Whatever the VFS and the state: the loop of `sys_meld` does not use up a
bound that exceeds the distance of the counter from `size / 2`. -/
theorem meld_loop_terminates {σ : Type} (V : Vfs σ) (file1 file2 file3 : Nat) (size : Int)
    (hsize : size < 2147483648) :
    ∀ (fuel : Nat) (counter : Int) (buffer1 buffer2 : List Byte) (k : kernel σ),
      0 < fuel → 0 ≤ counter → int_div size 2 < counter + fuel →
      meld_loop V file1 file2 file3 size fuel counter buffer1 buffer2 k ≠ .diverges := by
  have hhalf := int_div_two_lt size hsize
  intro fuel
  induction fuel with
  | zero => intro counter buffer1 buffer2 k h; omega
  | succ fuel ih =>
    intro counter buffer1 buffer2 k _ hpos hbound
    rw [meld_loop]
    split
    · rename_i hlt
      have hcnt : to_int (counter + 4) = counter + 4 :=
        to_int_of_range _ (by omega) (by omega)
      rw [hcnt]
      simp only []
      repeat' split
      all_goals first
        | (intro h; cases h)
        | exact ih _ _ _ _ (by omega) (by omega) (by omega)
    · intro h; cases h

theorem meld_cleanup_terminates {σ : Type} (V : Vfs σ) (file3 fd : Nat) (k : kernel σ) :
    meld_cleanup V file3 fd k ≠ .diverges := by
  simp only [meld_cleanup]
  repeat' split
  all_goals (intro h; cases h)

/-- The shape of `sys_meld`: it returns an error before its loop, or it is the
loop followed by the end of the function, with a `size` that is an `int`. -/
theorem sys_meld_cases {σ : Type} (V : Vfs σ) (pn1 pn2 pn3 : const_userptr_t)
    (b1 b2 : List Byte) (k : kernel σ) :
    (∃ e k1, sys_meld V pn1 pn2 pn3 b1 b2 k =
        .returns { result := some e, retval := none, buf := [], k := k1 }) ∨
    (∃ f1 f2 f3 fd size k1, size < 2147483648 ∧
      sys_meld V pn1 pn2 pn3 b1 b2 k = meld_finish V f3 fd
        (meld_loop V f1 f2 f3 size ((int_div size 2).toNat + 1) 0 b1 b2 k1)) := by
  simp only [sys_meld]
  repeat' split
  all_goals first
    | exact Or.inl ⟨_, _, by with_reducible rfl⟩
    | exact Or.inr ⟨_, _, _, _, _, _, to_int_lt _, by with_reducible rfl⟩

/-- Whatever the VFS, the paths, the buffers and the state: `sys_meld` ends or
waits for a lock; the bound it passes to its loop is enough. -/
theorem sys_meld_terminates {σ : Type} (V : Vfs σ) (pn1 pn2 pn3 : const_userptr_t)
    (b1 b2 : List Byte) (k : kernel σ) : sys_meld V pn1 pn2 pn3 b1 b2 k ≠ .diverges := by
  rcases sys_meld_cases V pn1 pn2 pn3 b1 b2 k with ⟨e, k1, h⟩ | ⟨f1, f2, f3, fd, size, k1, hlt, h⟩
  · rw [h]; intro h1; cases h1
  · rw [h]
    have hpos : 0 ≤ int_div size 2 ∨ int_div size 2 < 0 := by omega
    have hfuel : int_div size 2 < 0 + (((int_div size 2).toNat + 1 : Nat) : Int) := by
      omega
    have hloop := meld_loop_terminates V f1 f2 f3 size hlt
      ((int_div size 2).toNat + 1) 0 b1 b2 k1 (by omega) (by omega) hfuel
    generalize meld_loop V f1 f2 f3 size ((int_div size 2).toNat + 1) 0 b1 b2 k1 = o at hloop
    cases o with
    | diverges => exact absurd rfl hloop
    | panics => intro h1; cases h1
    | blocks => intro h1; cases h1
    | returns a =>
      obtain ⟨res, k2⟩ := a
      cases res with
      | none => exact meld_cleanup_terminates V _ _ _
      | some e => intro h1; cases h1

/-- Whatever the VFS, the paths, the buffers and the state: `sys_meld` never
returns 0. -/
theorem sys_meld_never_returns_zero {σ : Type} (V : Vfs σ) (pn1 pn2 pn3 : const_userptr_t)
    (b1 b2 : List Byte) (k : kernel σ) (r : sysret σ)
    (h : sys_meld V pn1 pn2 pn3 b1 b2 k = .returns r) : r.result ≠ none := by
  rcases sys_meld_cases V pn1 pn2 pn3 b1 b2 k with ⟨e, k1, h1⟩ | ⟨f1, f2, f3, fd, size, k1, -, h1⟩
  · rw [h1] at h; cases h; simp
  · rw [h1] at h
    generalize meld_loop V f1 f2 f3 size ((int_div size 2).toNat + 1) 0 b1 b2 k1 = o at h
    cases o with
    | diverges => cases h
    | panics => cases h
    | blocks => cases h
    | returns a =>
      obtain ⟨res, k2⟩ := a
      cases res with
      | none => rw [meld_cleanup_result V _ _ _ r h]; simp
      | some e => cases h; simp

/-- C2. A VFS error inside `sys_read`, `sys_write` or the loop of `sys_meld`
leaves the offset lock held at the return: on a read-write handle of file1,
with a device that fails with ENODEV, `sys_read` and `sys_write` return ENODEV
and the offset lock of the object is still held; `sys_meld` returns ENODEV
from its first read with the offset lock of file1 held. -/
theorem offset_lock_held_after_vfs_error :
    (∃ r, sys_read (failing_vfs ENODEV) 0 [0, 0, 0, 0] 4 (opened O_RDWR 4) = .returns r ∧
      r.result = some ENODEV ∧ (deref r.k 0).of_offsetlock = true) ∧
    (∃ r, sys_write (failing_vfs ENODEV) 0 [1, 2, 3, 4] 4 (opened O_RDWR 4) = .returns r ∧
      r.result = some ENODEV ∧ (deref r.k 0).of_offsetlock = true) ∧
    (∃ r, sys_meld (failing_vfs ENODEV) (.ok "file1") (.ok "file2") (.ok "file3") stale stale
        (fresh meld_fs 8) = .returns r ∧
      r.result = some ENODEV ∧ (deref r.k 0).of_offsetlock = true) := by
  refine ⟨⟨_, rfl, by decide, by decide⟩, ⟨_, rfl, by decide, by decide⟩,
    ⟨_, rfl, by decide, by decide⟩⟩

/-- C3. When the table is full, `sys_open` returns EMFILE without releasing the
object it created: in a process whose only slot is taken, `open("file2")`
returns EMFILE, the new object (index 1) still has reference count 1, and no
slot refers to it. -/
theorem sys_open_table_full_keeps_reference :
    (opened O_RDWR 1).ft_openfiles = [some 0] ∧
    (sys_open memvfs (.ok "file2") O_RDONLY 0 (opened O_RDWR 1)).result = some EMFILE ∧
    (sys_open memvfs (.ok "file2") O_RDONLY 0 (opened O_RDWR 1)).k.openfiles.length = 2 ∧
    (deref (sys_open memvfs (.ok "file2") O_RDONLY 0 (opened O_RDWR 1)).k 1).of_refcount = 1 ∧
    (sys_open memvfs (.ok "file2") O_RDONLY 0 (opened O_RDWR 1)).k.ft_openfiles = [some 0] := by
  refine ⟨by decide, by decide, by decide, by decide, by decide⟩

/-- C4. `sys_meld` does not restore the descriptor table.  On the files of
testbin/meld with eight free slots, every step succeeding, it returns with
slots 0 and 1 still filled and none of the three objects decref'd (each
reference count is still 1); with two free slots, the return after the failed
third `filetable_place` leaves both slots filled and all three objects with
reference count 1. -/
theorem sys_meld_leaves_table_changed :
    (∃ r, sys_meld memvfs (.ok "file1") (.ok "file2") (.ok "file3") stale stale
        (fresh meld_fs 8) = .returns r ∧
      r.k.ft_openfiles = [some 0, some 1, none, none, none, none, none, none] ∧
      r.k.ft_openfiles ≠ (fresh meld_fs 8).ft_openfiles ∧
      (deref r.k 0).of_refcount = 1 ∧ (deref r.k 1).of_refcount = 1 ∧
      (deref r.k 2).of_refcount = 1) ∧
    (∃ r, sys_meld memvfs (.ok "file1") (.ok "file2") (.ok "file3") stale stale
        (fresh meld_fs 2) = .returns r ∧
      r.result = some EMFILE ∧
      r.k.ft_openfiles = [some 0, some 1] ∧
      r.k.ft_openfiles ≠ (fresh meld_fs 2).ft_openfiles ∧
      (deref r.k 0).of_refcount = 1 ∧ (deref r.k 1).of_refcount = 1 ∧
      (deref r.k 2).of_refcount = 1) := by
  refine ⟨⟨_, rfl, by decide, by decide, by decide, by decide, by decide⟩,
    ⟨_, rfl, by decide, by decide, by decide, by decide, by decide, by decide⟩⟩

/-- C5. With every copy-in, open, placement, read and write succeeding (the
files of testbin/meld, eight free slots), `sys_meld` stores the number of bytes
written, 24, through `retval`, and returns ENOENT, not 0. -/
theorem sys_meld_success_path_returns_ENOENT :
    ∃ r, sys_meld memvfs (.ok "file1") (.ok "file2") (.ok "file3") stale stale
        (fresh meld_fs 8) = .returns r ∧
      r.retval = some 24 ∧ r.result = some ENOENT ∧ r.result ≠ none := by
  refine ⟨_, rfl, by decide, by decide, by decide⟩

/-- C7. For a handle outside `0 ≤ fd < capacity`, `sys_close` does not return an
error: the `KASSERT` on `filetable_okfd` fails and the kernel panics, for -1
and for the capacity itself. -/
theorem sys_close_out_of_range_panics :
    sys_close memvfs (-1) (fresh meld_fs 8) = .panics ∧
    sys_close memvfs 8 (fresh meld_fs 8) = .panics := by
  exact ⟨rfl, rfl⟩

/-- C9. `sys_open` does not surface the error of the VFS: for a missing file
opened without create-if-missing the VFS fails with ENOENT and `sys_open`
returns EFAULT; for fail-if-exists on an existing file the VFS fails with
EEXIST and `sys_open` returns EFAULT; and for flags whose access-mode bits are
both set (write-only and read-write together) `sys_open` does not return
EINVAL. -/
theorem sys_open_replaces_vfs_error :
    memfs_open meld_fs "nofile" O_RDONLY 0 = .error ENOENT ∧
    (sys_open memvfs (.ok "nofile") O_RDONLY 0 (fresh meld_fs 8)).result = some EFAULT ∧
    memfs_open meld_fs "file1" (O_WRONLY ||| O_CREAT ||| O_EXCL) 0 = .error EEXIST ∧
    (sys_open memvfs (.ok "file1") (O_WRONLY ||| O_CREAT ||| O_EXCL) 0
      (fresh meld_fs 8)).result = some EFAULT ∧
    (sys_open memvfs (.ok "file1") (O_WRONLY ||| O_RDWR) 0 (fresh meld_fs 8)).result
      ≠ some EINVAL := by
  refine ⟨rfl, by decide, rfl, by decide, by decide⟩

end OS161
